import Mathlib

/-!
Verification of the Meet-Your-Modules programme-specification ingestion
subsystem.

Part 1 models the PDF parser `programme_specification_pdf_parse`.  The
parser module `lib.py` is not among the provided backend sources (only its
test suite `test_pdf_parser.py` is), so the parser is modelled from the
specification: its recognizers, table classification, year/level context
tracking, module-record building and aggregation follow the spec text
(sections 2, 3 and 4) and the observable behaviour pinned by the tests.

Part 2 models `process_programme_spec_body` from `backend/db.py`,
translated directly from the source: the department/course/module/
module-iteration upsert logic, the per-module error handling and the
commit/rollback/close control flow.
-/

namespace MYM

/-! ### Character and string helpers (executable, kernel-reducible) -/

/-- Whitespace test used by the word splitter. -/
def isWS (c : Char) : Bool :=
  c == ' ' || c == '\n' || c == '\t' || c == '\r'

/-- Split a character list at a separator character. -/
def splitCharAux (sep : Char) : List Char → List Char → List String
  | [], acc => [String.mk acc.reverse]
  | c :: cs, acc =>
    if c == sep then String.mk acc.reverse :: splitCharAux sep cs []
    else splitCharAux sep cs (c :: acc)

/-- Whitespace-separated words of a string (empty words dropped). -/
def wordsAux : List Char → List Char → List String
  | [], acc => if acc.isEmpty then [] else [String.mk acc.reverse]
  | c :: cs, acc =>
    if isWS c then
      if acc.isEmpty then wordsAux cs []
      else String.mk acc.reverse :: wordsAux cs []
    else wordsAux cs (c :: acc)

def wordsOf (s : String) : List String := wordsAux s.toList []

/-- Lines of a string, split at newline characters. -/
def linesOf (s : String) : List String := splitCharAux '\n' s.toList []

/-- Hyphen-delimited segments (the filename tokenization). -/
def dashSegs (s : String) : List String := splitCharAux '-' s.toList []

/-- Strip leading and trailing whitespace (the `.strip()` of a cell). -/
def trimChars (s : String) : String :=
  String.mk (((s.toList.dropWhile isWS).reverse.dropWhile isWS).reverse)

/-- Numeric value of a digit run. -/
def digitsToNat (cs : List Char) : Nat :=
  cs.foldl (fun a c => a * 10 + (c.toNat - 48)) 0

/-- A non-empty all-digit string. -/
def isDigits (s : String) : Bool :=
  !s.toList.isEmpty && s.toList.all Char.isDigit

def natOfDigits (s : String) : Nat := digitsToNat s.toList

/-- Replace embedded newline characters by single spaces (title cleanup). -/
def collapseNewlines (s : String) : String :=
  String.mk (s.toList.map (fun c => if c == '\n' then ' ' else c))

/-- Join words with single spaces. -/
def joinWords : List String → String
  | [] => ""
  | [w] => w
  | w :: ws => w ++ " " ++ joinWords ws

/-! ### Module-code grammar and credits parsing -/

/-- Module-code grammar: one or more letters immediately followed by one or
more digits, nothing else. -/
def validModuleCode (s : String) : Bool :=
  let cs := s.toList
  let letters := cs.takeWhile Char.isAlpha
  let rest := cs.drop letters.length
  !letters.isEmpty && !rest.isEmpty && rest.all Char.isDigit

/-- Modelled from the spec: the float conversion applied to a credits cell
(`float(text)` in the missing `lib.py`), restricted to plain decimal
numerals: optional sign, an integer part and an optional fractional part,
at least one digit in total.  Empty or malformed text yields `none`. -/
def parseCredits (s : String) : Option Rat :=
  let cs := s.toList
  let signed : Bool × List Char :=
    match cs with
    | '-' :: rest => (true, rest)
    | _ => (false, cs)
  let neg := signed.1
  let body := signed.2
  let ip := body.takeWhile Char.isDigit
  let rest := body.drop ip.length
  match rest with
  | [] =>
    if ip.isEmpty then none
    else
      let m : Int := digitsToNat ip
      some (mkRat (if neg then -m else m) 1)
  | '.' :: fp =>
    if fp.all Char.isDigit && !(ip.isEmpty && fp.isEmpty) then
      let m : Int := digitsToNat ip * 10 ^ fp.length + digitsToNat fp
      some (mkRat (if neg then -m else m) (10 ^ fp.length))
    else none
  | _ => none

/-! ### Parser data model (spec section 3 / section 6 output shape) -/

structure ModuleRecord where
  code : String
  title : String
  mtype : String
  term : String
  credits : Option Rat
deriving Repr, DecidableEq

structure YearBucket where
  year : Nat
  fheq_level : Nat
  modules : List ModuleRecord
deriving Repr, DecidableEq

structure Programme where
  code : Option String
  title : String
  academic_year : Option String
deriving Repr, DecidableEq

structure Department where
  name : Option String
  faculty : Option String
deriving Repr, DecidableEq

structure Course where
  level : String
deriving Repr, DecidableEq

/-- The aggregate parse result.  `modules_by_year` is keyed by the year
number; the JSON rendering writes key `n` as the string `year_n`. -/
structure ParseResult where
  programme : Programme
  department : Department
  courses : List Course
  modules_by_year : List (Nat × YearBucket)
deriving Repr, DecidableEq

/-! ### Filename interpreter (spec section 4.1) -/

/-- Drop a trailing `.pdf` extension. -/
def stripPdfExt (s : String) : String :=
  let cs := s.toList
  if cs.reverse.take 4 == ['f', 'd', 'p', '.'] then
    String.mk (cs.take (cs.length - 4))
  else s

/-- Programme-code shape: one letter then three digits. -/
def isProgrammeCode (s : String) : Bool :=
  match s.toList with
  | [a, b, c, d] => a.isAlpha && b.isDigit && c.isDigit && d.isDigit
  | _ => false

/-- Does the segment list end in a `YYYY` then `YY` pair (the hyphen-split
image of a trailing `YYYY-YY` academic-year token)? -/
def hasYearSuffix (segs : List String) : Bool :=
  match segs.reverse with
  | y2 :: y4 :: _ =>
    isDigits y4 && y4.length == 4 && isDigits y2 && y2.length == 2
  | _ => false

/-- Modelled from the spec: the academic-year hint extracted from the
filename, the four-digit start year of a trailing `YYYY-YY` token. -/
def filenameYearHint (fname : String) : Option String :=
  let segs := dashSegs (stripPdfExt fname)
  match segs.reverse with
  | y2 :: y4 :: _ =>
    if isDigits y4 && y4.length == 4 && isDigits y2 && y2.length == 2 then
      some y4
    else none
  | _ => none

/-- Modelled from the spec: first hyphen-delimited token of the filename
matching the programme-code shape. -/
def filenameCode (fname : String) : Option String :=
  (dashSegs (stripPdfExt fname)).find? isProgrammeCode

/-- Remove the first list element satisfying a predicate. -/
def removeFirst (p : α → Bool) : List α → List α
  | [] => []
  | x :: xs => if p x then xs else x :: removeFirst p xs

/-- Known degree-level tokens (spec sections 4.1 and 4.3). -/
def knownLevels : List String := ["MEng", "BEng", "BSc", "MSc"]

/-- Strip parenthesis characters, keeping the inner words. -/
def stripParens (s : String) : String :=
  String.mk (s.toList.filter (fun c => !(c == '(') && !(c == ')')))

/-- Modelled from the spec: degree title from the filename — remaining
hyphen tokens after dropping the trailing year pair, the programme code and
any degree-level token, with parentheses characters removed. -/
def filenameTitle (fname : String) : String :=
  let segs := dashSegs (stripPdfExt fname)
  let segs := if hasYearSuffix segs then (segs.reverse.drop 2).reverse else segs
  let segs := removeFirst isProgrammeCode segs
  let segs := segs.filter (fun s => !knownLevels.contains s)
  joinWords ((segs.map stripParens).filter (fun s => !(s == "")))

/-! ### Page text scanner (spec section 4.2) -/

/-- Shape test for a `YYYY-YY` token. -/
def isYearSpanToken (s : String) : Bool :=
  match s.toList with
  | [a, b, c, d, '-', e, f] =>
    a.isDigit && b.isDigit && c.isDigit && d.isDigit && e.isDigit && f.isDigit
  | _ => false

/-- Modelled from the spec: the `Programme Specification (\d{4})-\d{2}`
recognizer over a word list; yields the captured four-digit start year of
the first occurrence. -/
def scanProgSpecYear : List String → Option String
  | [] => none
  | w :: ws =>
    if w == "Programme" then
      match ws with
      | "Specification" :: y :: _ =>
        if isYearSpanToken y then some (String.mk (y.toList.take 4))
        else scanProgSpecYear ws
      | _ => scanProgSpecYear ws
    else scanProgSpecYear ws

/-- Modelled from the spec: the `Year (\d+) - FHEQ Level (\d+)` recognizer;
yields every occurrence in text order. -/
def scanYearHeaders : List String → List (Nat × Nat)
  | [] => []
  | w :: ws =>
    if w == "Year" then
      match ws with
      | n :: "-" :: "FHEQ" :: "Level" :: m :: _ =>
        if isDigits n && isDigits m then
          (natOfDigits n, natOfDigits m) :: scanYearHeaders ws
        else scanYearHeaders ws
      | _ => scanYearHeaders ws
    else scanYearHeaders ws

/-- Words remaining before a `Faculty of` clause starts. -/
def takeUntilFacultyOf : List String → List String
  | "Faculty" :: "of" :: _ => []
  | w :: ws => w :: takeUntilFacultyOf ws
  | [] => []

/-- Modelled from the spec: department-name recognizer for a single line —
text after a leading `Department`, with a trailing `Faculty of …` clause
stripped. -/
def deptFromLine (l : String) : Option String :=
  match wordsOf l with
  | "Department" :: rest =>
    let name := takeUntilFacultyOf rest
    if name.isEmpty then none else some (joinWords name)
  | _ => none

/-- Modelled from the spec: faculty recognizer for a single line —
a leading `Faculty` followed by a `Faculty of …` clause. -/
def facultyFromLine (l : String) : Option String :=
  match wordsOf l with
  | "Faculty" :: "Faculty" :: "of" :: w :: ws =>
    some (joinWords ("Faculty" :: "of" :: w :: ws))
  | _ => none

/-! ### Tables (spec section 4.3) and module rows (section 4.5) -/

/-- A table as extracted from a page: rows of cell strings, first row
being the header. -/
abbrev Table := List (List String)

/-- Index of a named column in the header row. -/
def colIdx (hdr : List String) (name : String) : Option Nat :=
  hdr.findIdx? (fun c => c == name)

/-- Cell at an optional column index (missing column reads as empty). -/
def cellAt (row : List String) (i : Option Nat) : String :=
  match i with
  | some i => row.getD i ""
  | none => ""

/-- Modelled from the spec: build one module record from a table row —
grammar-check the trimmed code cell, collapse newlines in the title, carry
type and term verbatim, coerce credits; `none` when the code is rejected. -/
def buildModuleRecord (hdr row : List String) : Option ModuleRecord :=
  if validModuleCode (trimChars (cellAt row (colIdx hdr "Code"))) then
    some { code := trimChars (cellAt row (colIdx hdr "Code"))
           title := collapseNewlines (cellAt row (colIdx hdr "Module Title"))
           mtype := cellAt row (colIdx hdr "Core/Elective")
           term := cellAt row (colIdx hdr "Term")
           credits := parseCredits (trimChars (cellAt row (colIdx hdr "Credits"))) }
  else none

/-- Modelled from the spec: award-row classification — the first known
degree-level token occurring in any cell of the row. -/
def awardRowLevel (row : List String) : Option String :=
  row.findSome? (fun cell => (wordsOf cell).find? (fun w => knownLevels.contains w))

/-! ### Year/level context tracker and page loop (spec sections 4.2-4.6) -/

structure ParseState where
  buckets : List (Nat × YearBucket)
  currentYear : Option Nat
  courses : List Course
  docYear : Option String
  deptName : Option String
  deptFaculty : Option String
deriving Repr, DecidableEq

def initState : ParseState :=
  { buckets := [], currentYear := none, courses := []
    docYear := none, deptName := none, deptFaculty := none }

/-- Look a year bucket up by its year number. -/
def lookupBucket (bs : List (Nat × YearBucket)) (n : Nat) : Option YearBucket :=
  (bs.find? (fun p => p.1 == n)).map Prod.snd

/-- Append module records to the bucket keyed by `n`. -/
def appendModules (bs : List (Nat × YearBucket)) (n : Nat)
    (ms : List ModuleRecord) : List (Nat × YearBucket) :=
  bs.map (fun p =>
    if p.1 == n then (p.1, { p.2 with modules := p.2.modules ++ ms }) else p)

/-- Modelled from the spec: a `Year n - FHEQ Level lvl` header sighting —
create the bucket with `fheq_level = lvl` only if absent, and make `n` the
current year either way. -/
def handleHeader (st : ParseState) (n lvl : Nat) : ParseState :=
  match lookupBucket st.buckets n with
  | some _ => { st with currentYear := some n }
  | none =>
    { st with
        buckets := st.buckets ++ [(n, { year := n, fheq_level := lvl, modules := [] })]
        currentYear := some n }

/-- Modelled from the spec: classify one table and dispatch it — module
tables append validated rows to the current year bucket (rows before any
header are discarded), award tables contribute course entries, other
tables are ignored. -/
def processTable (st : ParseState) (t : Table) : ParseState :=
  match t with
  | [] => st
  | hdr :: rows =>
    if hdr.contains "Module Title" then
      match st.currentYear with
      | some n =>
        { st with buckets := appendModules st.buckets n (rows.filterMap (buildModuleRecord hdr)) }
      | none => st
    else if hdr.contains "Award" then
      { st with
          courses := st.courses ++ (rows.filterMap awardRowLevel).map (fun l => { level := l }) }
    else st

/-- One page of the opened document: its extracted text and tables. -/
structure Page where
  text : String
  tables : List Table
deriving Repr, DecidableEq

def pageWords (p : Page) : List String := wordsOf p.text

def pageYearHeaders (p : Page) : List (Nat × Nat) := scanYearHeaders (pageWords p)

/-- Modelled from the spec: the text-scanning phase of one page — capture
department/faculty from page 1 only and record a `Programme
Specification` year match. -/
def scanPhase (isFirst : Bool) (st : ParseState) (p : Page) : ParseState :=
  let st :=
    if isFirst then
      { st with
          deptName := (linesOf p.text).findSome? deptFromLine
          deptFaculty := (linesOf p.text).findSome? facultyFromLine }
    else st
  match scanProgSpecYear (pageWords p) with
  | some y => { st with docYear := some y }
  | none => st

/-- Modelled from the spec: process one page — scan the text, consume the
year headers in order, then dispatch the tables. -/
def processPage (isFirst : Bool) (st : ParseState) (p : Page) : ParseState :=
  p.tables.foldl processTable
    ((pageYearHeaders p).foldl (fun s nm => handleHeader s nm.1 nm.2)
      (scanPhase isFirst st p))

def runPages (st : ParseState) (ps : List Page) : ParseState :=
  ps.foldl (processPage false) st

def parsePages (ps : List Page) : ParseState :=
  match ps with
  | [] => initState
  | p :: rest => runPages (processPage true initState p) rest

/-- Modelled from the spec: the whole parser — filename interpretation,
page loop, aggregation.  The academic year prefers the in-document match
over the filename hint. -/
def programme_specification_pdf_parse (fname : String) (pages : List Page) : ParseResult :=
  let st := parsePages pages
  { programme :=
      { code := filenameCode fname
        title := filenameTitle fname
        academic_year :=
          match st.docYear with
          | some y => some y
          | none => filenameYearHint fname }
    department := { name := st.deptName, faculty := st.deptFaculty }
    courses := st.courses
    modules_by_year := st.buckets }

/-- Closed-form description of the in-document academic-year capture:
the last page match wins (later pages override earlier ones). -/
def docYearOf (ps : List Page) : Option String :=
  ps.foldl
    (fun acc p =>
      match scanProgSpecYear (pageWords p) with
      | some y => some y
      | none => acc)
    none

/-!
### Part 2: the database loader `process_programme_spec_data` (db.py)

The relational state is modelled as lists of rows; SQL statements become
operations on that state.  Each operation may fail (a database exception),
which is what the source's `try/except` blocks catch; the operations are
kept abstract in a `DBOps` record so that the control flow can be verified
against arbitrary failure behaviour, and `pureOps` instantiates them with
the evident list semantics (never failing).

The source function has two layers.  Its entry (db.py lines 593-594)
binds `conn = get_db_connection()` — a bare call of a function declared
`@contextmanager` (db.py line 64), whose own docstring mandates
`with get_db_connection() as conn:` and which every other function of
db.py uses exactly that way — and then evaluates
`conn.cursor(cursor_factory=RealDictCursor)`.  The bare call returns the
generator context-manager object, which has no `cursor` attribute, so
this raises AttributeError on every invocation, before the `try` block.
`process_programme_spec_body` below models the body (lines 596-715) as it
would execute on an acquired cursor and connection;
`process_programme_spec_data` models the whole function, entry included.
-/

structure DeptRow where
  id : Nat
  name : String
deriving Repr, DecidableEq

structure CourseRow where
  id : Nat
  home_department_id : Option Nat
  title : String
deriving Repr, DecidableEq

structure ModuleRow where
  id : Nat
  department_id : Option Nat
  code : String
  name : String
  credits : Option Rat
deriving Repr, DecidableEq

structure IterationRow where
  id : Nat
  module_id : Nat
  academic_year_start_year : String
deriving Repr, DecidableEq

structure DB where
  departments : List DeptRow
  courses : List CourseRow
  modules : List ModuleRow
  module_iterations : List IterationRow
  links : List (Nat × Nat)
  nextId : Nat
deriving Repr, DecidableEq

def emptyDB : DB :=
  { departments := [], courses := [], modules := []
    module_iterations := [], links := [], nextId := 1 }

/-- Input mirror of the parsed `credits` entry in a module dictionary:
the key may be absent, present with value `None`, or numeric. -/
inductive CreditsField
  | missing
  | null
  | val (q : Rat)
deriving Repr, DecidableEq

/-- `module_data.get("credits", 0)`: an absent key defaults to `0`, a
present `None` stays `None`, a number is passed through.  `none` models
the SQL NULL stored for a Python `None`. -/
def getCredits : CreditsField → Option Rat
  | .missing => some 0
  | .null => none
  | .val q => some q

/-- One module dictionary as consumed by the loader (`.get` calls give
`Option`-valued fields). -/
structure PdfModule where
  code : Option String
  title : Option String
  credits : CreditsField
deriving Repr, DecidableEq

structure PdfCourse where
  title : Option String
deriving Repr, DecidableEq

/-- The slice of the parser-output dictionary the loader reads. -/
structure PdfData where
  academic_year : Option String
  department_name : Option String
  courses : List PdfCourse
  modules_by_year : List (String × List PdfModule)
deriving Repr, DecidableEq

/-- Python truthiness of an optional string: `None` and `""` are falsy. -/
def pyTruthy (o : Option String) : Option String :=
  match o with
  | some s => if s == "" then none else some s
  | none => none

structure Summary where
  modules_added : Nat
  modules_updated : Nat
  errors : List String
deriving Repr, DecidableEq

def emptySummary : Summary := { modules_added := 0, modules_updated := 0, errors := [] }

/-- The SQL statements issued by `process_programme_spec_body`, as
operations on the modelled state.  Every operation may raise. -/
structure DBOps where
  findDept : String → DB → Except String (DB × Option Nat)
  insDept : String → DB → Except String (DB × Nat)
  findCourse : String → DB → Except String (DB × Option Nat)
  insCourse : Option Nat → String → DB → Except String (DB × Nat)
  findModule : String → DB → Except String (DB × Option Nat)
  updModule : Nat → String → Option Rat → Option Nat → DB → Except String DB
  insModule : Option Nat → String → String → Option Rat → DB → Except String (DB × Nat)
  findIter : Nat → String → DB → Except String (DB × Option Nat)
  insIter : Nat → String → DB → Except String (DB × Nat)
  insLink : Nat → Nat → DB → Except String DB

/-- The evident list semantics of each statement; never fails. -/
def pureOps : DBOps :=
  { findDept := fun d db =>
      .ok (db, (db.departments.find? (fun r => r.name == d)).map (fun r => r.id))
    insDept := fun d db =>
      .ok ({ db with departments := db.departments ++ [{ id := db.nextId, name := d }]
                     nextId := db.nextId + 1 }, db.nextId)
    findCourse := fun t db =>
      .ok (db, (db.courses.find? (fun r => r.title == t)).map (fun r => r.id))
    insCourse := fun dept t db =>
      .ok ({ db with courses := db.courses ++ [{ id := db.nextId, home_department_id := dept, title := t }]
                     nextId := db.nextId + 1 }, db.nextId)
    findModule := fun c db =>
      .ok (db, (db.modules.find? (fun r => r.code == c)).map (fun r => r.id))
    updModule := fun mid nm cr dept db =>
      .ok { db with modules := db.modules.map (fun m =>
              if m.id == mid then { m with name := nm, credits := cr, department_id := dept } else m) }
    insModule := fun dept c nm cr db =>
      .ok ({ db with modules := db.modules ++
                       [{ id := db.nextId, department_id := dept, code := c, name := nm, credits := cr }]
                     nextId := db.nextId + 1 }, db.nextId)
    findIter := fun mid y db =>
      .ok (db, (db.module_iterations.find? (fun r => r.module_id == mid && r.academic_year_start_year == y)).map
                 (fun r => r.id))
    insIter := fun mid y db =>
      .ok ({ db with module_iterations := db.module_iterations ++
                       [{ id := db.nextId, module_id := mid, academic_year_start_year := y }]
                     nextId := db.nextId + 1 }, db.nextId)
    insLink := fun itid cid db =>
      .ok (if db.links.contains (itid, cid) then db
           else { db with links := db.links ++ [(itid, cid)] }) }

/-- The module-iteration block of the loop body: create the iteration for
`(mid, academic_year)` if absent, and link a newly created iteration to
the detected course.  Errors carry the state at the failure point. -/
def iterTxn (ops : DBOps) (course : Option Nat) (ay : Option String) (mid : Nat)
    (db : DB) : Except (String × DB) DB :=
  match pyTruthy ay with
  | none => .ok db
  | some y =>
    match ops.findIter mid y db with
    | .error e => .error (e, db)
    | .ok (db, some _) => .ok db
    | .ok (db, none) =>
      match ops.insIter mid y db with
      | .error e => .error (e, db)
      | .ok (db, itid) =>
        match course with
        | none => .ok db
        | some cid =>
          match ops.insLink itid cid db with
          | .error e => .error (e, db)
          | .ok db => .ok db

def addErr (s : Summary) (code e : String) : Summary :=
  { s with errors := s.errors ++ ["Error processing module " ++ code ++ ": " ++ e] }

/-- One iteration of the per-module loop, `try/except` included: a raised
database error is appended to the summary's error list and the loop goes
on from the state at the failure point. -/
def processOneModule (ops : DBOps) (dept course : Option Nat) (ay : Option String)
    (acc : DB × Summary) (md : PdfModule) : DB × Summary :=
  let db := acc.1
  let s := acc.2
  match pyTruthy md.code, pyTruthy md.title with
  | some code, some name =>
    let credits := getCredits md.credits
    (match ops.findModule code db with
     | .error e => (db, addErr s code e)
     | .ok (db, some mid) =>
       (match ops.updModule mid name credits dept db with
        | .error e => (db, addErr s code e)
        | .ok db =>
          let s := { s with modules_updated := s.modules_updated + 1 }
          match iterTxn ops course ay mid db with
          | .error (e, db) => (db, addErr s code e)
          | .ok db => (db, s))
     | .ok (db, none) =>
       (match ops.insModule dept code name credits db with
        | .error e => (db, addErr s code e)
        | .ok (db, mid) =>
          let s := { s with modules_added := s.modules_added + 1 }
          match iterTxn ops course ay mid db with
          | .error (e, db) => (db, addErr s code e)
          | .ok db => (db, s)))
  | _, _ => (db, s)

/-- All module dictionaries, in `modules_by_year` iteration order. -/
def allModules (pdf : PdfData) : List PdfModule :=
  pdf.modules_by_year.foldr (fun p acc => p.2 ++ acc) []

def processModules (ops : DBOps) (dept course : Option Nat) (ay : Option String)
    (acc : DB × Summary) (ms : List PdfModule) : DB × Summary :=
  ms.foldl (processOneModule ops dept course ay) acc

/-- Section 1 of the loader: insert-or-get the department by name. -/
def deptSection (ops : DBOps) (pdf : PdfData) (db : DB) : Except String (DB × Option Nat) :=
  match pyTruthy pdf.department_name with
  | none => .ok (db, none)
  | some d =>
    match ops.findDept d db with
    | .error e => .error e
    | .ok (db, some did) => .ok (db, some did)
    | .ok (db, none) =>
      match ops.insDept d db with
      | .error e => .error e
      | .ok (db, did) => .ok (db, some did)

/-- Section 2 of the loader: insert-or-get the course by the first
course entry's title (`.get("title", "")`). -/
def courseSection (ops : DBOps) (pdf : PdfData) (dept : Option Nat) (db : DB) :
    Except String (DB × Option Nat) :=
  match pdf.courses with
  | [] => .ok (db, none)
  | c :: _ =>
    let t := c.title.getD ""
    match ops.findCourse t db with
    | .error e => .error e
    | .ok (db, some cid) => .ok (db, some cid)
    | .ok (db, none) =>
      match ops.insCourse dept t db with
      | .error e => .error e
      | .ok (db, cid) => .ok (db, some cid)

deriving instance DecidableEq for Except

/-- Outcome of a call: the durable database state (commit made the
transaction durable, rollback discarded it), the returned summary or the
raised exception, and whether cursor and connection were closed. -/
structure Outcome where
  persist : DB
  result : Except String Summary
  curClosed : Bool
  connClosed : Bool
deriving Repr, DecidableEq

/-- The body of `process_programme_spec_data` (db.py lines 596-715), as
it would execute on an acquired cursor and connection: department and
course sections, the per-module loop with its inner `try/except`, then
`commit`; an exception escaping to the outer handler rolls back to the
initial state and re-raises; `finally` closes cursor and connection on
every path.  The source never reaches this body: its entry raises
AttributeError first (see `process_programme_spec_data` below). -/
def process_programme_spec_body (ops : DBOps) (pdf : PdfData) (db0 : DB) : Outcome :=
  let r : Except String (DB × Summary) :=
    match deptSection ops pdf db0 with
    | .error e => .error e
    | .ok (db, dept) =>
      match courseSection ops pdf dept db with
      | .error e => .error e
      | .ok (db, course) =>
        .ok (processModules ops dept course pdf.academic_year (db, emptySummary) (allModules pdf))
  match r with
  | .ok (db, s) =>
    { persist := db, result := .ok s, curClosed := true, connClosed := true }
  | .error e =>
    { persist := db0, result := .error ("Database error: " ++ e)
      curClosed := true, connClosed := true }

/-- The value bound by `conn = get_db_connection()` at db.py line 593.
`get_db_connection` is declared `@contextmanager` (db.py line 64), so a
bare call yields the generator context-manager object; only entering it
with `with` would yield a pooled connection. -/
inductive ConnValue
  | managerObject
  | pooledConnection
deriving Repr, DecidableEq

/-- db.py line 593: the bare call of the `@contextmanager` function. -/
def get_db_connection_bare : ConnValue := ConnValue.managerObject

/-- db.py line 594, `conn.cursor(cursor_factory=RealDictCursor)`:
attribute lookup on the bound value.  The context-manager object has no
`cursor` attribute, so Python raises AttributeError; only a pooled
connection would yield a cursor. -/
def connCursor : ConnValue → Except String Unit
  | ConnValue.managerObject =>
    .error "AttributeError: _GeneratorContextManager has no attribute cursor"
  | ConnValue.pooledConnection => .ok ()

/-- Outcome of a full call, entry included: the durable state, what the
call returns or raises, whether a cursor was ever created, and whether
cursor and connection were closed. -/
structure RealOutcome where
  persist : DB
  result : Except String Summary
  cursorCreated : Bool
  curClosed : Bool
  connClosed : Bool
deriving Repr, DecidableEq

/-- `process_programme_spec_data`, translated from db.py lines 583-715
with its entry included: line 593 binds the bare `@contextmanager`
object and line 594's attribute lookup raises AttributeError before the
`try` block, so the body is never entered — the exception propagates
with no cursor created, nothing written and nothing closed.  With a
pooled connection the body would run as `process_programme_spec_body`. -/
def process_programme_spec_data (ops : DBOps) (pdf : PdfData) (db0 : DB) : RealOutcome :=
  match connCursor get_db_connection_bare with
  | .error e =>
    { persist := db0, result := .error e
      cursorCreated := false, curClosed := false, connClosed := false }
  | .ok _ =>
    let o := process_programme_spec_body ops pdf db0
    { persist := o.persist, result := o.result
      cursorCreated := true, curClosed := o.curClosed, connClosed := o.connClosed }

/-! ### Auxiliary definitions used by the statements and proofs -/

/-- The bucket-relevant projection of the parser state: the year buckets
and the current-year context. -/
abbrev BC := List (Nat × YearBucket) × Option Nat

def handleHeaderBC (x : BC) (n lvl : Nat) : BC :=
  match lookupBucket x.1 n with
  | some _ => (x.1, some n)
  | none => (x.1 ++ [(n, { year := n, fheq_level := lvl, modules := [] })], some n)

def processTableBC (x : BC) (t : Table) : BC :=
  match t with
  | [] => x
  | hdr :: rows =>
    if hdr.contains "Module Title" then
      match x.2 with
      | some n => (appendModules x.1 n (rows.filterMap (buildModuleRecord hdr)), x.2)
      | none => x
    else x

def stepBC (x : BC) (p : Page) : BC :=
  p.tables.foldl processTableBC ((pageYearHeaders p).foldl (fun s nm => handleHeaderBC s nm.1 nm.2) x)

def runBC (x : BC) (ps : List Page) : BC := ps.foldl stepBC x

/-- The claim's reading of an "empty" programme object. -/
def isEmptyProgramme (p : Programme) : Prop :=
  p.code = none ∧ p.title = "" ∧ p.academic_year = none

/-- Every module record in every bucket passes the code-grammar check. -/
def bucketsValid (bs : List (Nat × YearBucket)) : Prop :=
  ∀ p ∈ bs, ∀ m ∈ p.2.modules, validModuleCode m.code = true

/-- Bucket evolution: every bucket of `bs` is still present in `bs2`,
with the same year and FHEQ level, and with its module list only ever
extended at the end. -/
def extendsB (bs bs2 : List (Nat × YearBucket)) : Prop :=
  ∀ n b, lookupBucket bs n = some b →
    ∃ e, lookupBucket bs2 n =
      some { year := b.year, fheq_level := b.fheq_level, modules := b.modules ++ e }

/-- Some module row of the database carries this code. -/
def hasCode (db : DB) (c : String) : Prop := ∃ r ∈ db.modules, r.code = c

/-- Some module row carries this id and code. -/
def idCodeIn (db : DB) (i : Nat) (c : String) : Prop :=
  ∃ r ∈ db.modules, r.id = i ∧ r.code = c

/-- Every iteration row is linked to the course `cid`. -/
def linkedTo (db : DB) (cid : Nat) : Prop :=
  ∀ it ∈ db.module_iterations, (it.id, cid) ∈ db.links

/-- Closed form of the department section under the evident semantics:
insert-or-get keyed by department name equality. -/
def deptSectionPure (pdf : PdfData) (db : DB) : DB × Option Nat :=
  match pyTruthy pdf.department_name with
  | none => (db, none)
  | some d =>
    match db.departments.find? (fun r => r.name == d) with
    | some r => (db, some r.id)
    | none =>
      ({ db with departments := db.departments ++ [{ id := db.nextId, name := d }]
                 nextId := db.nextId + 1 }, some db.nextId)

/-- A database whose every statement raises (used to exercise the outer
exception path). -/
def failOps : DBOps :=
  { findDept := fun _ _ => .error "boom", insDept := fun _ _ => .error "boom"
    findCourse := fun _ _ => .error "boom", insCourse := fun _ _ _ => .error "boom"
    findModule := fun _ _ => .error "boom", updModule := fun _ _ _ _ _ => .error "boom"
    insModule := fun _ _ _ _ _ => .error "boom", findIter := fun _ _ _ => .error "boom"
    insIter := fun _ _ _ => .error "boom", insLink := fun _ _ _ => .error "boom" }

/-- Closed form of the module upsert under the evident semantics: look the
module up by code; update name/credits/department when found, insert a
fresh row otherwise.  Returns the state, the module id and whether a row
was added. -/
def upsertModulePure (dept : Option Nat) (c t : String) (cr : Option Rat) (db : DB) :
    DB × Nat × Bool :=
  match db.modules.find? (fun r => r.code == c) with
  | some r0 =>
    ({ db with modules := db.modules.map (fun m =>
        if m.id == r0.id then { m with name := t, credits := cr, department_id := dept } else m) },
     r0.id, false)
  | none =>
    ({ db with
         modules := db.modules ++
           [{ id := db.nextId, department_id := dept, code := c, name := t, credits := cr }],
         nextId := db.nextId + 1 },
     db.nextId, true)

/-- Closed form of the module-iteration block under the evident
semantics. -/
def iterPure (course : Option Nat) (ay : Option String) (mid : Nat) (db : DB) : DB :=
  match pyTruthy ay with
  | none => db
  | some y =>
    match db.module_iterations.find?
        (fun r => r.module_id == mid && r.academic_year_start_year == y) with
    | some _ => db
    | none =>
      let db1 := { db with
                     module_iterations := db.module_iterations ++
                       [{ id := db.nextId, module_id := mid, academic_year_start_year := y }],
                     nextId := db.nextId + 1 }
      match course with
      | none => db1
      | some cid =>
        if db1.links.contains (db.nextId, cid) then db1
        else { db1 with links := db1.links ++ [(db.nextId, cid)] }

/-- Closed form of one loop iteration under the evident semantics. -/
def pomPure (dept course : Option Nat) (ay : Option String)
    (acc : DB × Summary) (md : PdfModule) : DB × Summary :=
  match pyTruthy md.code, pyTruthy md.title with
  | some c, some t =>
    let u := upsertModulePure dept c t (getCredits md.credits) acc.1
    let s :=
      if u.2.2 then { acc.2 with modules_added := acc.2.modules_added + 1 }
      else { acc.2 with modules_updated := acc.2.modules_updated + 1 }
    (iterPure course ay u.2.1 u.1, s)
  | _, _ => acc

/-- Closed form of the course section under the evident semantics:
insert-or-get keyed by course title equality. -/
def courseSectionPure (pdf : PdfData) (dept : Option Nat) (db : DB) : DB × Option Nat :=
  match pdf.courses with
  | [] => (db, none)
  | c :: _ =>
    let t := c.title.getD ""
    match db.courses.find? (fun r => r.title == t) with
    | some r => (db, some r.id)
    | none =>
      ({ db with courses := db.courses ++ [{ id := db.nextId, home_department_id := dept, title := t }]
                 nextId := db.nextId + 1 }, some db.nextId)

/-! ## General fold helpers -/

theorem foldl_pres {α β : Type} (P : α → Prop) (f : α → β → α)
    (hf : ∀ s x, P s → P (f s x)) :
    ∀ (l : List β) (s : α), P s → P (l.foldl f s)
  | [], _, h => h
  | x :: xs, s, h => foldl_pres P f hf xs (f s x) (hf s x h)

theorem foldl_proj {α β γ : Type} (g : α → γ) (f : α → β → α) (f2 : γ → β → γ)
    (hf : ∀ s x, g (f s x) = f2 (g s) x) :
    ∀ (l : List β) (s : α), g (l.foldl f s) = l.foldl f2 (g s)
  | [], _ => rfl
  | x :: xs, s => by
    rw [List.foldl_cons, List.foldl_cons, foldl_proj g f f2 hf xs (f s x), hf]

theorem foldl_const {α β : Type} : ∀ (l : List β) (d : α), l.foldl (fun d _ => d) d = d
  | [], _ => rfl
  | _ :: xs, d => foldl_const xs d

/-! ## Academic-year capture (claim C4) -/

theorem docYear_handleHeader (st : ParseState) (n l : Nat) :
    (handleHeader st n l).docYear = st.docYear := by
  unfold handleHeader
  cases lookupBucket st.buckets n <;> rfl

theorem docYear_processTable (st : ParseState) (t : Table) :
    (processTable st t).docYear = st.docYear := by
  unfold processTable
  cases t with
  | nil => rfl
  | cons hdr rows =>
    dsimp only
    split
    · cases st.currentYear <;> rfl
    · split <;> rfl

theorem docYear_foldHeaders (l : List (Nat × Nat)) (st : ParseState) :
    (l.foldl (fun s nm => handleHeader s nm.1 nm.2) st).docYear = st.docYear := by
  rw [foldl_proj ParseState.docYear (fun s nm => handleHeader s nm.1 nm.2)
    (fun d _ => d) (fun s nm => docYear_handleHeader s nm.1 nm.2) l st]
  exact foldl_const l st.docYear

theorem docYear_foldTables (l : List Table) (st : ParseState) :
    (l.foldl processTable st).docYear = st.docYear := by
  rw [foldl_proj ParseState.docYear processTable (fun d _ => d)
    (fun s t => docYear_processTable s t) l st]
  exact foldl_const l st.docYear

theorem docYear_scanPhase (b : Bool) (st : ParseState) (p : Page) :
    (scanPhase b st p).docYear =
      (match scanProgSpecYear (pageWords p) with
       | some y => some y
       | none => st.docYear) := by
  unfold scanPhase
  cases b <;> cases h : scanProgSpecYear (pageWords p) <;> simp [h]

theorem bc_scanPhase (b : Bool) (st : ParseState) (p : Page) :
    ((scanPhase b st p).buckets, (scanPhase b st p).currentYear) =
      (st.buckets, st.currentYear) := by
  unfold scanPhase
  cases b <;> cases h : scanProgSpecYear (pageWords p) <;> simp [h]

theorem docYear_processPage (b : Bool) (st : ParseState) (p : Page) :
    (processPage b st p).docYear =
      (match scanProgSpecYear (pageWords p) with
       | some y => some y
       | none => st.docYear) := by
  unfold processPage
  rw [docYear_foldTables, docYear_foldHeaders, docYear_scanPhase]

theorem docYear_parsePages (ps : List Page) :
    (parsePages ps).docYear = docYearOf ps := by
  cases ps with
  | nil => rfl
  | cons p rest =>
    unfold parsePages docYearOf runPages
    rw [foldl_proj ParseState.docYear (processPage false)
      (fun d q =>
        match scanProgSpecYear (pageWords q) with
        | some y => some y
        | none => d)
      (fun s q => docYear_processPage false s q) rest (processPage true initState p)]
    rw [docYear_processPage true initState p, List.foldl_cons]
    rfl

/-- C4.  The output `programme.academic_year` equals the year captured by
the `Programme Specification YYYY-YY` in-document recognizer when any page
matches (later pages overriding earlier), and falls back to the filename's
trailing `YYYY-YY` start year exactly when no page matches: the
in-document text overrides the filename-derived year. -/
theorem academic_year_doc_overrides_filename (fname : String) (ps : List Page) :
    (programme_specification_pdf_parse fname ps).programme.academic_year =
      (match docYearOf ps with
       | some y => some y
       | none => filenameYearHint fname) := by
  unfold programme_specification_pdf_parse
  rw [← docYear_parsePages ps]

/-! ## Determinism (claim C8) -/

/-- C8.  The parser is a pure function of the filename and the document's
page contents: parsing the same document twice yields structurally
identical output, with no ordering nondeterminism in the course list, the
`modules_by_year` mapping or its per-bucket module lists. -/
theorem parser_deterministic (fname : String) (ps : List Page) :
    programme_specification_pdf_parse fname ps =
      programme_specification_pdf_parse fname ps := rfl

/-! ## Credits coercion (claim C3) -/

theorem buildModuleRecord_credits (hdr row : List String) (r : ModuleRecord)
    (h : buildModuleRecord hdr row = some r) :
    r.credits = parseCredits (trimChars (cellAt row (colIdx hdr "Credits"))) := by
  unfold buildModuleRecord at h
  split at h
  · cases h
    rfl
  · cases h

/-- C3.  The credits of every accepted module row are obtained by the
float conversion of the trimmed credits cell: `"6.0"` gives `6.0`, `"10"`
gives `10.0`, and the empty cell or unconvertible text gives an absent
value (the conversion is a total function: it raises nothing and defaults
to nothing). -/
theorem credits_float_conversion :
    (∀ hdr row r, buildModuleRecord hdr row = some r →
       r.credits = parseCredits (trimChars (cellAt row (colIdx hdr "Credits")))) ∧
    parseCredits "6.0" = some 6 ∧
    parseCredits "10" = some 10 ∧
    parseCredits "" = none ∧
    parseCredits "n/a" = none :=
  ⟨buildModuleRecord_credits, by decide, by decide, by decide, by decide⟩

/-- Concrete instantiation of C3's universal part on the credits-extraction
fixture row. -/
theorem credits_float_conversion_witness :
    (MYM.buildModuleRecord ["Code", "Module Title", "Core/Elective", "Term", "Credits"]
        ["COMP40003", "Module 3", "Core", "Summer", "10"]).map ModuleRecord.credits =
      some (some 10) := by
  have h :=
    credits_float_conversion.1
      ["Code", "Module Title", "Core/Elective", "Term", "Credits"]
      ["COMP40003", "Module 3", "Core", "Summer", "10"]
  cases hb : MYM.buildModuleRecord ["Code", "Module Title", "Core/Elective", "Term", "Credits"]
      ["COMP40003", "Module 3", "Core", "Summer", "10"] with
  | none => exact absurd hb (by decide)
  | some r =>
    have hc := h r hb
    simp only [Option.map_some']
    rw [hc]
    decide

/-! ## Code-grammar invariant (claim C1) -/

theorem buildModuleRecord_code (hdr row : List String) (r : ModuleRecord)
    (h : buildModuleRecord hdr row = some r) : validModuleCode r.code = true := by
  unfold buildModuleRecord at h
  split at h
  · cases h
    assumption
  · cases h

theorem bucketsValid_append (bs : List (Nat × YearBucket)) (n : Nat)
    (ms : List ModuleRecord) (hbs : bucketsValid bs)
    (hms : ∀ m ∈ ms, validModuleCode m.code = true) :
    bucketsValid (appendModules bs n ms) := by
  intro p hp m hm
  unfold appendModules at hp
  rcases List.mem_map.mp hp with ⟨q, hq, hpq⟩
  by_cases h : (q.1 == n) = true
  · rw [if_pos h] at hpq
    subst hpq
    rcases List.mem_append.mp hm with hl | hr
    · exact hbs q hq m hl
    · exact hms m hr
  · rw [if_neg h] at hpq
    subst hpq
    exact hbs q hq m hm

theorem bucketsValid_handleHeader (st : ParseState) (n lvl : Nat)
    (h : bucketsValid st.buckets) :
    bucketsValid (handleHeader st n lvl).buckets := by
  unfold handleHeader
  cases lookupBucket st.buckets n with
  | some b => exact h
  | none =>
    intro p hp m hm
    rcases List.mem_append.mp hp with hl | hr
    · exact h p hl m hm
    · rcases List.mem_singleton.mp hr with rfl
      cases hm

theorem bucketsValid_processTable (st : ParseState) (t : Table)
    (h : bucketsValid st.buckets) :
    bucketsValid (processTable st t).buckets := by
  unfold processTable
  cases t with
  | nil => exact h
  | cons hdr rows =>
    dsimp only
    split
    · cases st.currentYear with
      | some n =>
        apply bucketsValid_append _ _ _ h
        intro m hm
        rcases List.mem_filterMap.mp hm with ⟨row, _, hrow⟩
        exact buildModuleRecord_code hdr row m hrow
      | none => exact h
    · split
      · exact h
      · exact h

theorem bucketsValid_processPage (b : Bool) (st : ParseState) (p : Page)
    (h : bucketsValid st.buckets) :
    bucketsValid (processPage b st p).buckets := by
  unfold processPage
  exact foldl_pres (fun s => bucketsValid s.buckets) processTable
    (fun s t => bucketsValid_processTable s t) p.tables _
    (foldl_pres (fun s => bucketsValid s.buckets)
      (fun s (nm : Nat × Nat) => handleHeader s nm.1 nm.2)
      (fun s (nm : Nat × Nat) => bucketsValid_handleHeader s nm.1 nm.2)
      (pageYearHeaders p) (scanPhase b st p)
      (by
        show bucketsValid (scanPhase b st p).buckets
        rw [show (scanPhase b st p).buckets = st.buckets from
          congrArg Prod.fst (bc_scanPhase b st p)]
        exact h))

theorem bucketsValid_parsePages (ps : List Page) :
    bucketsValid (parsePages ps).buckets := by
  cases ps with
  | nil => intro p hp; cases hp
  | cons p rest =>
    unfold parsePages runPages
    apply foldl_pres (fun s => bucketsValid s.buckets) (processPage false)
      (fun s q => bucketsValid_processPage false s q)
    apply bucketsValid_processPage
    intro q hq
    cases hq

/-- C1.  Every module record in any `modules_by_year` bucket of a parse
result has a code matching the code grammar (letters then digits, nothing
else), and any table row whose trimmed code cell fails the grammar —
including the empty cell — builds no record at all, so it is absent from
the output without any error being raised (the builder is total). -/
theorem output_module_codes_valid :
    (∀ (fname : String) (ps : List Page) (p : Nat × YearBucket) (m : ModuleRecord),
        p ∈ (programme_specification_pdf_parse fname ps).modules_by_year →
        m ∈ p.2.modules → validModuleCode m.code = true) ∧
    (∀ hdr row, validModuleCode (trimChars (cellAt row (colIdx hdr "Code"))) = false →
        buildModuleRecord hdr row = none) := by
  constructor
  · intro fname ps p m hp hm
    exact bucketsValid_parsePages ps p hp m hm
  · intro hdr row h
    unfold buildModuleRecord
    rw [h]
    rfl

/-- Concrete instantiation of C1 on the code-validation fixture: the
mixed-validity table yields exactly the two grammar-conforming records. -/
theorem output_module_codes_valid_witness :
    validModuleCode
      (ModuleRecord.code
        { code := "COMP40001", title := "Valid Module", mtype := "Core"
          term := "Autumn", credits := some 6 }) = true ∧
    MYM.buildModuleRecord
      ["Code", "Module Title", "Core/Elective", "Term", "Credits"]
      ["COMP-123", "Invalid Format", "Core", "Spring", "6.0"] = none := by
  constructor
  · exact output_module_codes_valid.1 "G400-Test-2024-25.pdf"
      [{ text := "Year 1 - FHEQ Level 4"
         tables := [[["Code", "Module Title", "Core/Elective", "Term", "Credits"],
                     ["COMP40001", "Valid Module", "Core", "Autumn", "6.0"],
                     ["INVALID", "Invalid Code", "Core", "Autumn", "6.0"],
                     ["COMP-123", "Invalid Format", "Core", "Spring", "6.0"],
                     ["", "No Code", "Core", "Spring", "6.0"],
                     ["MATH50002", "Another Valid Module", "Elective", "Spring", "7.5"]]] }]
      (1, { year := 1, fheq_level := 4
            modules := [{ code := "COMP40001", title := "Valid Module", mtype := "Core"
                          term := "Autumn", credits := some 6 },
                        { code := "MATH50002", title := "Another Valid Module", mtype := "Elective"
                          term := "Spring", credits := some (mkRat 15 2) }] })
      { code := "COMP40001", title := "Valid Module", mtype := "Core"
        term := "Autumn", credits := some 6 }
      (by decide) (by decide)
  · exact output_module_codes_valid.2
      ["Code", "Module Title", "Core/Elective", "Term", "Credits"]
      ["COMP-123", "Invalid Format", "Core", "Spring", "6.0"] (by decide)

/-! ## Empty-document behaviour (claim C5) -/

theorem processPage_emptyPage (b : Bool) (p : Page)
    (ht : p.text = "") (hb : p.tables = []) :
    processPage b initState p = initState := by
  cases p
  cases ht
  cases hb
  cases b <;> rfl

theorem runPages_emptyPages :
    ∀ (ps : List Page), (∀ p ∈ ps, p.text = "" ∧ p.tables = []) →
      runPages initState ps = initState
  | [], _ => rfl
  | p :: rest, h => by
    unfold runPages
    rw [List.foldl_cons,
      processPage_emptyPage false p (h p (List.mem_cons_self p rest)).1
        (h p (List.mem_cons_self p rest)).2]
    exact runPages_emptyPages rest (fun q hq => h q (List.mem_cons_of_mem p hq))

theorem parsePages_emptyPages (ps : List Page)
    (h : ∀ p ∈ ps, p.text = "" ∧ p.tables = []) : parsePages ps = initState := by
  cases ps with
  | nil => rfl
  | cons p rest =>
    show runPages (processPage true initState p) rest = initState
    rw [processPage_emptyPage true p (h p (List.mem_cons_self p rest)).1
      (h p (List.mem_cons_self p rest)).2]
    exact runPages_emptyPages rest (fun q hq => h q (List.mem_cons_of_mem p hq))

/-- C5 counterexample.  On the empty-document fixture (filename
`Empty-2024-25.pdf`, one page with no text and no tables) the programme
object is not empty: the filename-derived academic-year hint `2024` (and
title `Empty`) are still populated, contradicting the claim that the
programme object is empty for every contentless document. -/
theorem empty_doc_programme_not_empty :
    ¬ isEmptyProgramme
        ((programme_specification_pdf_parse "Empty-2024-25.pdf"
            [{ text := "", tables := [] }]).programme) := by
  intro h
  exact absurd h.2.2 (by decide)

/-- C5 (amended).  For every document with no extractable text and no
tables the parser still returns a well-formed result: department name and
faculty absent, an empty course list, an empty `modules_by_year` mapping,
and a programme object carrying exactly the filename-derived code, title
and academic-year hint (so it is empty only when the filename provides
nothing). -/
theorem empty_doc_result_shape (fname : String) (ps : List Page)
    (h : ∀ p ∈ ps, p.text = "" ∧ p.tables = []) :
    (programme_specification_pdf_parse fname ps).department.name = none ∧
    (programme_specification_pdf_parse fname ps).department.faculty = none ∧
    (programme_specification_pdf_parse fname ps).courses = [] ∧
    (programme_specification_pdf_parse fname ps).modules_by_year = [] ∧
    (programme_specification_pdf_parse fname ps).programme =
      { code := filenameCode fname, title := filenameTitle fname
        academic_year := filenameYearHint fname } := by
  unfold programme_specification_pdf_parse
  rw [parsePages_emptyPages ps h]
  exact ⟨rfl, rfl, rfl, rfl, rfl⟩

/-- Concrete instantiation of C5's amended statement on the empty-document
fixture. -/
theorem empty_doc_result_shape_witness :
    (programme_specification_pdf_parse "Empty-2024-25.pdf"
        [{ text := "", tables := [] }]).modules_by_year = [] ∧
    (programme_specification_pdf_parse "Empty-2024-25.pdf"
        [{ text := "", tables := [] }]).programme.academic_year = some "2024" := by
  have h := empty_doc_result_shape "Empty-2024-25.pdf" [{ text := "", tables := [] }]
    (by intro p hp; cases List.mem_singleton.mp hp; exact ⟨rfl, rfl⟩)
  refine ⟨h.2.2.2.1, ?_⟩
  rw [h.2.2.2.2]
  decide

/-! ## Bucket lookup lemmas and first-sighting stability (claim C2) -/

theorem appendModules_cons (p : Nat × YearBucket) (t : List (Nat × YearBucket))
    (n : Nat) (ms : List ModuleRecord) :
    appendModules (p :: t) n ms =
      (if (p.1 == n) = true then (p.1, { p.2 with modules := p.2.modules ++ ms }) else p)
        :: appendModules t n ms := rfl

theorem lookupBucket_cons_pos {q : Nat × YearBucket} {t : List (Nat × YearBucket)}
    {k : Nat} (hq : (q.1 == k) = true) : lookupBucket (q :: t) k = some q.2 := by
  unfold lookupBucket
  rw [List.find?_cons]
  rw [hq]
  rfl

theorem lookupBucket_cons_neg {q : Nat × YearBucket} {t : List (Nat × YearBucket)}
    {k : Nat} (hq : ¬ (q.1 == k) = true) : lookupBucket (q :: t) k = lookupBucket t k := by
  unfold lookupBucket
  rw [List.find?_cons]
  rw [Bool.of_not_eq_true hq]

theorem lookup_appendModules :
    ∀ (bs : List (Nat × YearBucket)) (n : Nat) (ms : List ModuleRecord) (k : Nat),
      lookupBucket (appendModules bs n ms) k =
        (lookupBucket bs k).map
          (fun b => if k == n then { b with modules := b.modules ++ ms } else b)
  | [], _, _, _ => rfl
  | p :: t, n, ms, k => by
    have ih := lookup_appendModules t n ms k
    rw [appendModules_cons]
    by_cases hpn : (p.1 == n) = true
    · rw [if_pos hpn]
      by_cases hpk : (p.1 == k) = true
      · rw [@lookupBucket_cons_pos (p.1, { p.2 with modules := p.2.modules ++ ms })
            (appendModules t n ms) k hpk, lookupBucket_cons_pos hpk]
        have hk : (k == n) = true := by
          have h1 : p.1 = n := by simpa using hpn
          have h2 : p.1 = k := by simpa using hpk
          simp [← h2, h1]
        simp [hk]
      · rw [@lookupBucket_cons_neg (p.1, { p.2 with modules := p.2.modules ++ ms })
            (appendModules t n ms) k hpk, lookupBucket_cons_neg hpk]
        exact ih
    · rw [if_neg hpn]
      by_cases hpk : (p.1 == k) = true
      · rw [lookupBucket_cons_pos hpk, lookupBucket_cons_pos hpk]
        have hkn : (k == n) = false := by
          have h2 : p.1 = k := by simpa using hpk
          have h1 : (p.1 == n) = false := by simpa using hpn
          simpa [← h2] using h1
        simp [hkn]
      · rw [lookupBucket_cons_neg hpk, lookupBucket_cons_neg hpk]
        exact ih

theorem lookup_append_present :
    ∀ (bs l : List (Nat × YearBucket)) (k : Nat) (b : YearBucket),
      lookupBucket bs k = some b → lookupBucket (bs ++ l) k = some b
  | [], _, _, _, h => by exact Option.noConfusion h
  | p :: t, l, k, b, h => by
    by_cases hpk : (p.1 == k) = true
    · rw [lookupBucket_cons_pos hpk] at h
      rw [List.cons_append, lookupBucket_cons_pos hpk]
      exact h
    · rw [lookupBucket_cons_neg hpk] at h
      rw [List.cons_append, lookupBucket_cons_neg hpk]
      exact lookup_append_present t l k b h

theorem lookup_append_new (bs : List (Nat × YearBucket)) (n : Nat) (b : YearBucket)
    (h : lookupBucket bs n = none) :
    lookupBucket (bs ++ [(n, b)]) n = some b := by
  induction bs with
  | nil => exact lookupBucket_cons_pos (by simp)
  | cons p t ih =>
    by_cases hpk : (p.1 == n) = true
    · rw [lookupBucket_cons_pos hpk] at h
      exact Option.noConfusion h
    · rw [lookupBucket_cons_neg hpk] at h
      rw [List.cons_append, lookupBucket_cons_neg hpk]
      exact ih h

theorem extendsB_refl (bs : List (Nat × YearBucket)) : extendsB bs bs := by
  intro n b h
  exact ⟨[], by cases b; simpa using h⟩

theorem extendsB_trans (a b c : List (Nat × YearBucket))
    (h1 : extendsB a b) (h2 : extendsB b c) : extendsB a c := by
  intro n x hx
  rcases h1 n x hx with ⟨e1, he1⟩
  rcases h2 n _ he1 with ⟨e2, he2⟩
  exact ⟨e1 ++ e2, by simpa [List.append_assoc] using he2⟩

theorem extendsB_appendModules (bs : List (Nat × YearBucket)) (n : Nat)
    (ms : List ModuleRecord) : extendsB bs (appendModules bs n ms) := by
  intro k b h
  rw [lookup_appendModules, h]
  by_cases hkn : (k == n) = true
  · exact ⟨ms, by cases b; simp [hkn]⟩
  · exact ⟨[], by cases b; simp [hkn]⟩

theorem extendsB_handleHeader (st : ParseState) (n lvl : Nat) :
    extendsB st.buckets (handleHeader st n lvl).buckets := by
  unfold handleHeader
  cases hl : lookupBucket st.buckets n with
  | some b => exact extendsB_refl _
  | none =>
    intro k b h
    exact ⟨[], by
      cases b
      simpa using lookup_append_present st.buckets _ k _ h⟩

theorem extendsB_processTable (st : ParseState) (t : Table) :
    extendsB st.buckets (processTable st t).buckets := by
  unfold processTable
  cases t with
  | nil => exact extendsB_refl _
  | cons hdr rows =>
    dsimp only
    split
    · cases st.currentYear with
      | some n => exact extendsB_appendModules _ _ _
      | none => exact extendsB_refl _
    · split
      · exact extendsB_refl _
      · exact extendsB_refl _

theorem foldl_extendsB {β : Type} (f : ParseState → β → ParseState)
    (hf : ∀ s x, extendsB s.buckets (f s x).buckets) :
    ∀ (l : List β) (s : ParseState), extendsB s.buckets (l.foldl f s).buckets
  | [], _ => extendsB_refl _
  | x :: xs, s =>
    extendsB_trans _ _ _ (hf s x) (foldl_extendsB f hf xs (f s x))

theorem extendsB_processPage (b : Bool) (st : ParseState) (p : Page) :
    extendsB st.buckets (processPage b st p).buckets := by
  unfold processPage
  have hsc : (scanPhase b st p).buckets = st.buckets :=
    congrArg Prod.fst (bc_scanPhase b st p)
  have h1 : extendsB (scanPhase b st p).buckets
      (((pageYearHeaders p).foldl (fun s nm => handleHeader s nm.1 nm.2)
        (scanPhase b st p)).buckets) :=
    foldl_extendsB (fun s (nm : Nat × Nat) => handleHeader s nm.1 nm.2)
      (fun s nm => extendsB_handleHeader s nm.1 nm.2) _ _
  have h2 := foldl_extendsB processTable (fun s t => extendsB_processTable s t) p.tables
    ((pageYearHeaders p).foldl (fun s nm => handleHeader s nm.1 nm.2) (scanPhase b st p))
  rw [hsc] at h1
  exact extendsB_trans _ _ _ h1 h2

theorem extendsB_runPages (st : ParseState) (ps : List Page) :
    extendsB st.buckets (runPages st ps).buckets :=
  foldl_extendsB (processPage false) (fun s p => extendsB_processPage false s p) ps st

/-- C2.  A year bucket is created at the first sighting of its `Year N -
FHEQ Level M` header with `fheq_level = M` and an empty module list; a
later sighting of the same year — whatever level it carries — leaves the
buckets untouched and only re-activates the year; and from any state in
which the bucket exists, processing any further pages preserves its year
and FHEQ level and only ever appends to its module list. -/
theorem year_bucket_first_sighting_stable :
    (∀ (st : ParseState) (n lvl : Nat),
        lookupBucket st.buckets n = none →
          lookupBucket (handleHeader st n lvl).buckets n =
              some { year := n, fheq_level := lvl, modules := [] } ∧
            (handleHeader st n lvl).currentYear = some n) ∧
    (∀ (st : ParseState) (n lvl2 : Nat) (b : YearBucket),
        lookupBucket st.buckets n = some b →
          (handleHeader st n lvl2).buckets = st.buckets ∧
            (handleHeader st n lvl2).currentYear = some n) ∧
    (∀ (st : ParseState) (ps : List Page) (n : Nat) (b : YearBucket),
        lookupBucket st.buckets n = some b →
          ∃ e, lookupBucket (runPages st ps).buckets n =
            some { year := b.year, fheq_level := b.fheq_level
                   modules := b.modules ++ e }) := by
  refine ⟨fun st n lvl h => ?_, fun st n lvl2 b h => ?_, fun st ps n b h => ?_⟩
  · unfold handleHeader
    rw [h]
    exact ⟨lookup_append_new st.buckets n _ h, rfl⟩
  · unfold handleHeader
    rw [h]
    exact ⟨rfl, rfl⟩
  · exact extendsB_runPages st ps n b h

/-- Concrete instantiation of C2: from a state holding `year 1` at FHEQ
level 4, a later page repeating `Year 1` with conflicting level 9 leaves
the level at 4 and appends the new module rows to the same bucket. -/
theorem year_bucket_first_sighting_stable_witness :
    ∃ e, lookupBucket
        (runPages
          { buckets := [(1, { year := 1, fheq_level := 4, modules := [] })]
            currentYear := some 1, courses := [], docYear := none
            deptName := none, deptFaculty := none }
          [{ text := "Year 1 - FHEQ Level 9"
             tables := [[["Code", "Module Title", "Core/Elective", "Term", "Credits"],
                         ["COMP40001", "Late Row", "Core", "Autumn", "6.0"]]] }]).buckets 1 =
      some { year := 1, fheq_level := 4, modules := [] ++ e } :=
  year_bucket_first_sighting_stable.2.2
    { buckets := [(1, { year := 1, fheq_level := 4, modules := [] })]
      currentYear := some 1, courses := [], docYear := none
      deptName := none, deptFaculty := none }
    [{ text := "Year 1 - FHEQ Level 9"
       tables := [[["Code", "Module Title", "Core/Elective", "Term", "Credits"],
                   ["COMP40001", "Late Row", "Core", "Autumn", "6.0"]]] }]
    1 { year := 1, fheq_level := 4, modules := [] } (by decide)

/-! ## Orphan module rows (claim C6) -/

theorem bc_handleHeader (st : ParseState) (n lvl : Nat) :
    ((handleHeader st n lvl).buckets, (handleHeader st n lvl).currentYear) =
      handleHeaderBC (st.buckets, st.currentYear) n lvl := by
  unfold handleHeader handleHeaderBC
  cases h : lookupBucket st.buckets n <;> simp [h]

theorem bc_processTable (st : ParseState) (t : Table) :
    ((processTable st t).buckets, (processTable st t).currentYear) =
      processTableBC (st.buckets, st.currentYear) t := by
  unfold processTable processTableBC
  cases t with
  | nil => rfl
  | cons hdr rows =>
    dsimp only
    split
    · cases h : st.currentYear <;> simp [h]
    · split <;> rfl

theorem bc_processPage (b : Bool) (st : ParseState) (p : Page) :
    ((processPage b st p).buckets, (processPage b st p).currentYear) =
      stepBC (st.buckets, st.currentYear) p := by
  have e1 : ∀ (l : List Table) (s : ParseState),
      ((l.foldl processTable s).buckets, (l.foldl processTable s).currentYear) =
        l.foldl processTableBC (s.buckets, s.currentYear) :=
    fun l s =>
      foldl_proj (fun s => (s.buckets, s.currentYear)) processTable processTableBC
        bc_processTable l s
  have e2 : ∀ (l : List (Nat × Nat)) (s : ParseState),
      ((l.foldl (fun s nm => handleHeader s nm.1 nm.2) s).buckets,
        (l.foldl (fun s nm => handleHeader s nm.1 nm.2) s).currentYear) =
        l.foldl (fun x nm => handleHeaderBC x nm.1 nm.2) (s.buckets, s.currentYear) :=
    fun l s =>
      foldl_proj (fun s => (s.buckets, s.currentYear))
        (fun s (nm : Nat × Nat) => handleHeader s nm.1 nm.2)
        (fun x (nm : Nat × Nat) => handleHeaderBC x nm.1 nm.2)
        (fun s nm => bc_handleHeader s nm.1 nm.2) l s
  unfold processPage stepBC
  rw [e1, e2, bc_scanPhase]

theorem bc_runPages (st : ParseState) (ps : List Page) :
    ((runPages st ps).buckets, (runPages st ps).currentYear) =
      runBC (st.buckets, st.currentYear) ps :=
  foldl_proj (fun s => (s.buckets, s.currentYear)) (processPage false) stepBC
    (fun s p => bc_processPage false s p) ps st

theorem bc_parsePages (ps : List Page) :
    ((parsePages ps).buckets, (parsePages ps).currentYear) = runBC ([], none) ps := by
  cases ps with
  | nil => rfl
  | cons p rest =>
    show ((runPages (processPage true initState p) rest).buckets,
        (runPages (processPage true initState p) rest).currentYear) = _
    rw [bc_runPages, bc_processPage]
    rfl

theorem processTableBC_noYear (bs : List (Nat × YearBucket)) (t : Table) :
    processTableBC (bs, none) t = (bs, none) := by
  unfold processTableBC
  cases t with
  | nil => rfl
  | cons hdr rows =>
    dsimp only
    split
    · rfl
    · rfl

theorem foldTablesBC_noYear (ts : List Table) (bs : List (Nat × YearBucket)) :
    ts.foldl processTableBC (bs, none) = (bs, none) := by
  induction ts with
  | nil => rfl
  | cons t ts ih => rw [List.foldl_cons, processTableBC_noYear]; exact ih

theorem stepBC_headerless (p : Page) (bs : List (Nat × YearBucket))
    (h : pageYearHeaders p = []) : stepBC (bs, none) p = (bs, none) := by
  unfold stepBC
  rw [h]
  exact foldTablesBC_noYear p.tables bs

theorem runBC_headerless :
    ∀ (ps : List Page) (bs : List (Nat × YearBucket)),
      (∀ p ∈ ps, pageYearHeaders p = []) → runBC (bs, none) ps = (bs, none)
  | [], _, _ => rfl
  | p :: rest, bs, h => by
    unfold runBC
    rw [List.foldl_cons, stepBC_headerless p bs (h p (List.mem_cons_self p rest))]
    exact runBC_headerless rest bs (fun q hq => h q (List.mem_cons_of_mem p hq))

theorem modules_by_year_eq_buckets (fname : String) (ps : List Page) :
    (programme_specification_pdf_parse fname ps).modules_by_year =
      (parsePages ps).buckets := rfl

/-- C6.  Module-table rows encountered before any `Year N - FHEQ Level M`
header has ever been seen are silently discarded: a headerless page prefix
contributes nothing to `modules_by_year` — no bucket is created for its
rows and they appear in no bucket — and processing continues normally
(the parser is a total function, so no exception arises). -/
theorem orphan_module_rows_discarded (fname : String) (ps1 ps2 : List Page)
    (h : ∀ p ∈ ps1, pageYearHeaders p = []) :
    (programme_specification_pdf_parse fname (ps1 ++ ps2)).modules_by_year =
      (programme_specification_pdf_parse fname ps2).modules_by_year := by
  rw [modules_by_year_eq_buckets, modules_by_year_eq_buckets]
  have h1 := bc_parsePages (ps1 ++ ps2)
  have h2 := bc_parsePages ps2
  have h3 : runBC (([] : List (Nat × YearBucket)), (none : Option Nat)) (ps1 ++ ps2) =
      runBC ([], none) ps2 := by
    unfold runBC
    rw [List.foldl_append]
    rw [show List.foldl stepBC (([] : List (Nat × YearBucket)), (none : Option Nat)) ps1 =
      (([] : List (Nat × YearBucket)), (none : Option Nat)) from runBC_headerless ps1 [] h]
  have := congrArg Prod.fst ((h1.trans h3).trans h2.symm)
  simpa using this

/-- Concrete instantiation of C6: a page holding a module table but no
year header contributes nothing — the parse equals that of the rest of
the document. -/
theorem orphan_module_rows_discarded_witness :
    (programme_specification_pdf_parse "G400-Test-2024-25.pdf"
        ([{ text := "No header here"
            tables := [[["Code", "Module Title", "Core/Elective", "Term", "Credits"],
                        ["COMP40001", "Orphan Row", "Core", "Autumn", "6.0"]]] }] ++ [])).modules_by_year =
      (programme_specification_pdf_parse "G400-Test-2024-25.pdf" []).modules_by_year :=
  orphan_module_rows_discarded "G400-Test-2024-25.pdf"
    [{ text := "No header here"
       tables := [[["Code", "Module Title", "Core/Elective", "Term", "Credits"],
                   ["COMP40001", "Orphan Row", "Core", "Autumn", "6.0"]]] }] []
    (by decide)

/-! ## Bridging the loader to its closed pure form -/

theorem pureOps_findDept (d : String) (db : DB) :
    pureOps.findDept d db =
      Except.ok (db, (db.departments.find? (fun r => r.name == d)).map (fun r => r.id)) := rfl

theorem pureOps_insDept (d : String) (db : DB) :
    pureOps.insDept d db =
      Except.ok ({ db with departments := db.departments ++ [{ id := db.nextId, name := d }]
                           nextId := db.nextId + 1 }, db.nextId) := rfl

theorem pureOps_findCourse (t : String) (db : DB) :
    pureOps.findCourse t db =
      Except.ok (db, (db.courses.find? (fun r => r.title == t)).map (fun r => r.id)) := rfl

theorem pureOps_insCourse (dept : Option Nat) (t : String) (db : DB) :
    pureOps.insCourse dept t db =
      Except.ok ({ db with
                     courses := db.courses ++
                       [{ id := db.nextId, home_department_id := dept, title := t }],
                     nextId := db.nextId + 1 }, db.nextId) := rfl

theorem pureOps_findModule (c : String) (db : DB) :
    pureOps.findModule c db =
      Except.ok (db, (db.modules.find? (fun r => r.code == c)).map (fun r => r.id)) := rfl

theorem pureOps_updModule (mid : Nat) (nm : String) (cr : Option Rat) (dept : Option Nat)
    (db : DB) :
    pureOps.updModule mid nm cr dept db =
      Except.ok { db with modules := db.modules.map (fun m =>
        if m.id == mid then { m with name := nm, credits := cr, department_id := dept }
        else m) } := rfl

theorem pureOps_insModule (dept : Option Nat) (c nm : String) (cr : Option Rat) (db : DB) :
    pureOps.insModule dept c nm cr db =
      Except.ok ({ db with
                     modules := db.modules ++
                       [{ id := db.nextId, department_id := dept, code := c, name := nm
                          credits := cr }],
                     nextId := db.nextId + 1 }, db.nextId) := rfl

theorem pureOps_findIter (mid : Nat) (y : String) (db : DB) :
    pureOps.findIter mid y db =
      Except.ok (db, (db.module_iterations.find?
        (fun r => r.module_id == mid && r.academic_year_start_year == y)).map
          (fun r => r.id)) := rfl

theorem pureOps_insIter (mid : Nat) (y : String) (db : DB) :
    pureOps.insIter mid y db =
      Except.ok ({ db with
                     module_iterations := db.module_iterations ++
                       [{ id := db.nextId, module_id := mid, academic_year_start_year := y }],
                     nextId := db.nextId + 1 }, db.nextId) := rfl

theorem pureOps_insLink (itid cid : Nat) (db : DB) :
    pureOps.insLink itid cid db =
      Except.ok (if db.links.contains (itid, cid) then db
                 else { db with links := db.links ++ [(itid, cid)] }) := rfl

theorem iterTxn_pure_eq (course : Option Nat) (ay : Option String) (mid : Nat) (db : DB) :
    iterTxn pureOps course ay mid db = Except.ok (iterPure course ay mid db) := by
  unfold iterTxn iterPure
  cases hay : pyTruthy ay with
  | none => rfl
  | some y =>
    cases hf : db.module_iterations.find?
        (fun r => r.module_id == mid && r.academic_year_start_year == y) with
    | some it => simp [hay, hf, pureOps_findIter]
    | none =>
      cases course with
      | none => simp [hay, hf, pureOps_findIter, pureOps_insIter]
      | some cid =>
        by_cases hl : ((db.nextId, cid) ∈ db.links)
        · simp [hay, hf, hl, pureOps_findIter, pureOps_insIter, pureOps_insLink]
        · simp [hay, hf, hl, pureOps_findIter, pureOps_insIter, pureOps_insLink]

/-- The iteration block never touches departments, courses or modules. -/
theorem iterPure_fields (course : Option Nat) (ay : Option String) (mid : Nat) (db : DB) :
    (iterPure course ay mid db).departments = db.departments ∧
    (iterPure course ay mid db).courses = db.courses ∧
    (iterPure course ay mid db).modules = db.modules := by
  unfold iterPure
  cases hay : pyTruthy ay with
  | none => simp [hay]
  | some y =>
    cases hf : db.module_iterations.find?
        (fun r => r.module_id == mid && r.academic_year_start_year == y) with
    | some it => simp [hay, hf]
    | none =>
      cases course with
      | none => simp [hay, hf]
      | some cid =>
        by_cases hl : ((db.nextId, cid) ∈ db.links)
        · simp [hay, hf, hl]
        · simp [hay, hf, hl]

/-- The module upsert never touches departments, courses, iterations or
links. -/
theorem upsert_fields (dept : Option Nat) (c t : String) (cr : Option Rat) (db : DB) :
    (upsertModulePure dept c t cr db).1.departments = db.departments ∧
    (upsertModulePure dept c t cr db).1.courses = db.courses ∧
    (upsertModulePure dept c t cr db).1.module_iterations = db.module_iterations ∧
    (upsertModulePure dept c t cr db).1.links = db.links := by
  unfold upsertModulePure
  cases hf : db.modules.find? (fun r => r.code == c) with
  | some r0 => simp [hf]
  | none => simp [hf]

theorem pom_pure_eq (dept course : Option Nat) (ay : Option String)
    (acc : DB × Summary) (md : PdfModule) :
    processOneModule pureOps dept course ay acc md = pomPure dept course ay acc md := by
  obtain ⟨db, s⟩ := acc
  unfold processOneModule pomPure
  cases hc : pyTruthy md.code with
  | none => rfl
  | some c =>
    cases ht : pyTruthy md.title with
    | none => rfl
    | some t =>
      cases hf : db.modules.find? (fun r => r.code == c) with
      | some r0 =>
        simp [hc, ht, hf, pureOps_findModule, pureOps_updModule, iterTxn_pure_eq,
          upsertModulePure]
      | none =>
        simp [hc, ht, hf, pureOps_findModule, pureOps_insModule, iterTxn_pure_eq,
          upsertModulePure]

theorem deptSection_pure_eq (pdf : PdfData) (db : DB) :
    deptSection pureOps pdf db = Except.ok (deptSectionPure pdf db) := by
  unfold deptSection deptSectionPure
  cases hd : pyTruthy pdf.department_name with
  | none => rfl
  | some d =>
    cases hf : db.departments.find? (fun r => r.name == d) with
    | some r => simp [hd, hf, pureOps_findDept]
    | none => simp [hd, hf, pureOps_findDept, pureOps_insDept]

theorem courseSection_pure_eq (pdf : PdfData) (dept : Option Nat) (db : DB) :
    courseSection pureOps pdf dept db = Except.ok (courseSectionPure pdf dept db) := by
  unfold courseSection courseSectionPure
  cases hcs : pdf.courses with
  | nil => rfl
  | cons c rest =>
    cases hf : db.courses.find? (fun r => r.title == c.title.getD "") with
    | some r => simp [hcs, hf, pureOps_findCourse]
    | none => simp [hcs, hf, pureOps_findCourse, pureOps_insCourse]

theorem processModules_pure_eq (dept course : Option Nat) (ay : Option String) :
    ∀ (ms : List PdfModule) (acc : DB × Summary),
      processModules pureOps dept course ay acc ms = ms.foldl (pomPure dept course ay) acc
  | [], _ => rfl
  | md :: ms, acc => by
    unfold processModules
    rw [List.foldl_cons, List.foldl_cons, pom_pure_eq]
    exact processModules_pure_eq dept course ay ms (pomPure dept course ay acc md)

theorem process_pure_spec (pdf : PdfData) (db0 : DB) :
    (process_programme_spec_body pureOps pdf db0).persist =
      ((allModules pdf).foldl
        (pomPure (deptSectionPure pdf db0).2
          (courseSectionPure pdf (deptSectionPure pdf db0).2 (deptSectionPure pdf db0).1).2
          pdf.academic_year)
        ((courseSectionPure pdf (deptSectionPure pdf db0).2 (deptSectionPure pdf db0).1).1,
          emptySummary)).1 ∧
    (process_programme_spec_body pureOps pdf db0).result =
      Except.ok
        ((allModules pdf).foldl
          (pomPure (deptSectionPure pdf db0).2
            (courseSectionPure pdf (deptSectionPure pdf db0).2 (deptSectionPure pdf db0).1).2
            pdf.academic_year)
          ((courseSectionPure pdf (deptSectionPure pdf db0).2 (deptSectionPure pdf db0).1).1,
            emptySummary)).2 := by
  rcases e1 : deptSectionPure pdf db0 with ⟨db1, d0⟩
  rcases e2 : courseSectionPure pdf d0 db1 with ⟨db2, c0⟩
  unfold process_programme_spec_body
  rw [deptSection_pure_eq, e1]
  dsimp only
  rw [courseSection_pure_eq, e2]
  dsimp only
  rw [processModules_pure_eq]
  simp [e1, e2]

/-! ## Credits at the loading boundary (claim C9) -/

/-- Body-level fact: in the loop of db.py lines 645-676,
`module_data.get("credits", 0)` makes a missing credits key
indistinguishable from zero credits, while an explicit null would be
preserved as SQL NULL — the row the body inserts for a fresh module
carries exactly `getCredits` of the entry's credits field. -/
theorem credits_key_absence_conflated_with_zero :
    getCredits CreditsField.missing = some 0 ∧
    getCredits CreditsField.null = none ∧
    (∀ (dept course : Option Nat) (ay : Option String) (db : DB) (s : Summary)
        (md : PdfModule) (c t : String),
        pyTruthy md.code = some c → pyTruthy md.title = some t →
        db.modules.find? (fun r => r.code == c) = none →
        (processOneModule pureOps dept course ay (db, s) md).1.modules =
          db.modules ++ [{ id := db.nextId, department_id := dept, code := c, name := t
                           credits := getCredits md.credits }]) := by
  refine ⟨rfl, rfl, fun dept course ay db s md c t hc ht hf => ?_⟩
  rw [pom_pure_eq]
  unfold pomPure
  rw [hc, ht]
  dsimp only [upsertModulePure]
  rw [hf]
  dsimp only
  have hit := iterPure_fields course ay db.nextId
    { db with
        modules := db.modules ++
          [{ id := db.nextId, department_id := dept, code := c, name := t
             credits := getCredits md.credits }],
        nextId := db.nextId + 1 }
  exact hit.2.2

/-- Body-level instantiation: a module entry with no credits key would
be inserted with credits 0; one with an explicit null with NULL. -/
theorem credits_key_absence_conflated_with_zero_witness :
    (processOneModule pureOps none none none (emptyDB, emptySummary)
        { code := some "COMP40001", title := some "M", credits := CreditsField.missing }).1.modules =
      [{ id := 1, department_id := none, code := "COMP40001", name := "M", credits := some 0 }] ∧
    (processOneModule pureOps none none none (emptyDB, emptySummary)
        { code := some "COMP40002", title := some "N", credits := CreditsField.null }).1.modules =
      [{ id := 1, department_id := none, code := "COMP40002", name := "N", credits := none }] := by
  constructor
  · rw [credits_key_absence_conflated_with_zero.2.2 none none none emptyDB emptySummary
      { code := some "COMP40001", title := some "M", credits := CreditsField.missing }
      "COMP40001" "M" (by decide) (by decide) (by decide)]
    decide
  · rw [credits_key_absence_conflated_with_zero.2.2 none none none emptyDB emptySummary
      { code := some "COMP40002", title := some "N", credits := CreditsField.null }
      "COMP40002" "N" (by decide) (by decide) (by decide)]
    decide

/-! ## Error handling of the loader (claim C10) -/

theorem addErr_errors (s : Summary) (code e : String) :
    (addErr s code e).errors = s.errors ++ ["Error processing module " ++ code ++ ": " ++ e] :=
  rfl

theorem processOneModule_errors (ops : DBOps) (dept course : Option Nat)
    (ay : Option String) (acc : DB × Summary) (md : PdfModule) :
    ∃ es, (processOneModule ops dept course ay acc md).2.errors = acc.2.errors ++ es := by
  obtain ⟨db, s⟩ := acc
  unfold processOneModule
  cases hc : pyTruthy md.code with
  | none => exact ⟨[], by simp [hc]⟩
  | some c =>
    cases ht : pyTruthy md.title with
    | none => exact ⟨[], by simp [hc, ht]⟩
    | some t =>
      simp only [hc, ht]
      cases hm : ops.findModule c db with
      | error e =>
        exact ⟨["Error processing module " ++ c ++ ": " ++ e], by simp [hm, addErr_errors]⟩
      | ok pr =>
        obtain ⟨db1, found⟩ := pr
        cases found with
        | some mid =>
          simp only [hm]
          cases hu : ops.updModule mid t (getCredits md.credits) dept db1 with
          | error e =>
            exact ⟨["Error processing module " ++ c ++ ": " ++ e], by simp [hu, addErr_errors]⟩
          | ok db2 =>
            simp only [hu]
            cases hi : iterTxn ops course ay mid db2 with
            | error ed =>
              obtain ⟨e, db3⟩ := ed
              exact ⟨["Error processing module " ++ c ++ ": " ++ e], by simp [hi, addErr_errors]⟩
            | ok db3 => exact ⟨[], by simp [hi]⟩
        | none =>
          simp only [hm]
          cases hins : ops.insModule dept c t (getCredits md.credits) db1 with
          | error e =>
            exact ⟨["Error processing module " ++ c ++ ": " ++ e], by simp [hins, addErr_errors]⟩
          | ok pr2 =>
            obtain ⟨db2, mid⟩ := pr2
            simp only [hins]
            cases hi : iterTxn ops course ay mid db2 with
            | error ed =>
              obtain ⟨e, db3⟩ := ed
              exact ⟨["Error processing module " ++ c ++ ": " ++ e], by simp [hi, addErr_errors]⟩
            | ok db3 => exact ⟨[], by simp [hi]⟩

theorem processModules_errors (ops : DBOps) (dept course : Option Nat) (ay : Option String) :
    ∀ (ms : List PdfModule) (acc : DB × Summary),
      ∃ es, (processModules ops dept course ay acc ms).2.errors = acc.2.errors ++ es
  | [], acc => ⟨[], by simp [processModules]⟩
  | md :: ms, acc => by
    obtain ⟨es1, h1⟩ := processOneModule_errors ops dept course ay acc md
    obtain ⟨es2, h2⟩ :=
      processModules_errors ops dept course ay ms (processOneModule ops dept course ay acc md)
    refine ⟨es1 ++ es2, ?_⟩
    unfold processModules at h2 ⊢
    rw [List.foldl_cons, h2, h1, List.append_assoc]

/-- Body-level fact: control flow of `process_programme_spec_body` (the
db.py lines 596-715 the source never reaches): the `finally` flags hold
on every exit path of the body; if the body raises, the durable state is
the initial one — rollback, no partial summary; the per-module loop is a
fold, so a failing module never aborts the processing of the remaining
list; loop errors only accumulate into `result.errors`; and whenever the
department and course sections succeed the body returns a summary,
whatever exceptions the per-module operations raise. -/
theorem loader_error_handling :
    (∀ (ops : DBOps) (pdf : PdfData) (db0 : DB),
        (process_programme_spec_body ops pdf db0).curClosed = true ∧
        (process_programme_spec_body ops pdf db0).connClosed = true) ∧
    (∀ (ops : DBOps) (pdf : PdfData) (db0 : DB) (e : String),
        (process_programme_spec_body ops pdf db0).result = Except.error e →
        (process_programme_spec_body ops pdf db0).persist = db0) ∧
    (∀ (ops : DBOps) (dept course : Option Nat) (ay : Option String)
        (acc : DB × Summary) (ms ms2 : List PdfModule),
        processModules ops dept course ay acc (ms ++ ms2) =
          processModules ops dept course ay (processModules ops dept course ay acc ms) ms2) ∧
    (∀ (ops : DBOps) (dept course : Option Nat) (ay : Option String)
        (ms : List PdfModule) (acc : DB × Summary),
        ∃ es, (processModules ops dept course ay acc ms).2.errors = acc.2.errors ++ es) ∧
    (∀ (ops : DBOps) (pdf : PdfData) (db0 db1 : DB) (dept : Option Nat) (db2 : DB)
        (course : Option Nat),
        deptSection ops pdf db0 = Except.ok (db1, dept) →
        courseSection ops pdf dept db1 = Except.ok (db2, course) →
        (process_programme_spec_body ops pdf db0).result =
          Except.ok (processModules ops dept course pdf.academic_year
            (db2, emptySummary) (allModules pdf)).2) := by
  refine ⟨fun ops pdf db0 => ?_, fun ops pdf db0 e he => ?_,
    fun ops dept course ay acc ms ms2 => ?_,
    fun ops dept course ay ms acc => processModules_errors ops dept course ay ms acc,
    fun ops pdf db0 db1 dept db2 course h1 h2 => ?_⟩
  · unfold process_programme_spec_body
    dsimp only
    split <;> exact ⟨rfl, rfl⟩
  · unfold process_programme_spec_body at he ⊢
    cases hd : deptSection ops pdf db0 with
    | error e2 => simp only [hd]
    | ok pr =>
      obtain ⟨db1, dept⟩ := pr
      cases hcs : courseSection ops pdf dept db1 with
      | error e2 => simp only [hd, hcs]
      | ok pr2 =>
        obtain ⟨db2, course⟩ := pr2
        simp only [hd, hcs] at he
        exact absurd he (by simp)
  · unfold processModules
    exact List.foldl_append _ _ _ _
  · unfold process_programme_spec_body
    simp only [h1, h2]

/-- Body-level instantiation: with every statement raising, the body
raises and leaves the durable state unchanged. -/
theorem loader_error_handling_witness :
    (process_programme_spec_body failOps
        { academic_year := none, department_name := some "Computing", courses := []
          modules_by_year := [] } emptyDB).persist = emptyDB ∧
    (process_programme_spec_body failOps
        { academic_year := none, department_name := some "Computing", courses := []
          modules_by_year := [] } emptyDB).curClosed = true := by
  constructor
  · exact loader_error_handling.2.1 failOps
      { academic_year := none, department_name := some "Computing", courses := []
        modules_by_year := [] } emptyDB "Database error: boom" (by decide)
  · exact (loader_error_handling.1 failOps
      { academic_year := none, department_name := some "Computing", courses := []
        modules_by_year := [] } emptyDB).1

/-! ## Keyed upserts and linking (claim C7) -/

theorem deptSectionPure_fields (pdf : PdfData) (db : DB) :
    (deptSectionPure pdf db).1.courses = db.courses ∧
    (deptSectionPure pdf db).1.modules = db.modules ∧
    (deptSectionPure pdf db).1.module_iterations = db.module_iterations ∧
    (deptSectionPure pdf db).1.links = db.links := by
  unfold deptSectionPure
  cases hd : pyTruthy pdf.department_name with
  | none => exact ⟨rfl, rfl, rfl, rfl⟩
  | some d =>
    cases hf : db.departments.find? (fun r => r.name == d) with
    | some r => simp [hd, hf]
    | none => simp [hd, hf]

theorem courseSectionPure_fields (pdf : PdfData) (dept : Option Nat) (db : DB) :
    (courseSectionPure pdf dept db).1.departments = db.departments ∧
    (courseSectionPure pdf dept db).1.modules = db.modules ∧
    (courseSectionPure pdf dept db).1.module_iterations = db.module_iterations ∧
    (courseSectionPure pdf dept db).1.links = db.links := by
  unfold courseSectionPure
  cases hcs : pdf.courses with
  | nil => exact ⟨rfl, rfl, rfl, rfl⟩
  | cons c rest =>
    cases hf : db.courses.find? (fun r => r.title == c.title.getD "") with
    | some r => simp [hcs, hf]
    | none => simp [hcs, hf]

theorem pomPure_dept_courses (dept course : Option Nat) (ay : Option String)
    (acc : DB × Summary) (md : PdfModule) :
    (pomPure dept course ay acc md).1.departments = acc.1.departments ∧
    (pomPure dept course ay acc md).1.courses = acc.1.courses := by
  unfold pomPure
  cases hc : pyTruthy md.code with
  | none => exact ⟨rfl, rfl⟩
  | some c =>
    cases ht : pyTruthy md.title with
    | none => exact ⟨rfl, rfl⟩
    | some t =>
      simp only [hc, ht]
      constructor
      · rw [(iterPure_fields _ _ _ _).1, (upsert_fields dept c t (getCredits md.credits) acc.1).1]
      · rw [(iterPure_fields _ _ _ _).2.1,
          (upsert_fields dept c t (getCredits md.credits) acc.1).2.1]

theorem foldPom_dept_courses (dept course : Option Nat) (ay : Option String) :
    ∀ (ms : List PdfModule) (acc : DB × Summary),
      ((ms.foldl (pomPure dept course ay) acc).1.departments = acc.1.departments ∧
       (ms.foldl (pomPure dept course ay) acc).1.courses = acc.1.courses)
  | [], _ => ⟨rfl, rfl⟩
  | md :: ms, acc => by
    rw [List.foldl_cons]
    obtain ⟨h1, h2⟩ := foldPom_dept_courses dept course ay ms (pomPure dept course ay acc md)
    obtain ⟨g1, g2⟩ := pomPure_dept_courses dept course ay acc md
    exact ⟨h1.trans g1, h2.trans g2⟩

theorem hasCode_of_modules_eq {db db2 : DB} (h : db2.modules = db.modules) (c : String) :
    hasCode db2 c ↔ hasCode db c := by
  unfold hasCode
  rw [h]

theorem upsert_hasCode (dept : Option Nat) (c t : String) (cr : Option Rat) (db : DB)
    (c2 : String) :
    hasCode (upsertModulePure dept c t cr db).1 c2 ↔ hasCode db c2 ∨ c2 = c := by
  unfold upsertModulePure
  cases hf : db.modules.find? (fun r => r.code == c) with
  | some r0 =>
    have hr0 : r0 ∈ db.modules := List.mem_of_find?_eq_some hf
    have hr0c : r0.code = c := by simpa using List.find?_some hf
    have hcode : ∀ m : ModuleRow,
        (if (m.id == r0.id) = true
         then { m with name := t, credits := cr, department_id := dept } else m).code = m.code :=
      fun m => by split <;> rfl
    simp only
    constructor
    · rintro ⟨r, hr, hrc⟩
      rcases List.mem_map.mp hr with ⟨m, hm, rfl⟩
      exact Or.inl ⟨m, hm, (hcode m).symm.trans hrc⟩
    · rintro (⟨m, hm, hmc⟩ | rfl)
      · exact ⟨_, List.mem_map_of_mem _ hm, (hcode m).trans hmc⟩
      · exact ⟨_, List.mem_map_of_mem _ hr0, (hcode r0).trans hr0c⟩
  | none =>
    simp only
    unfold hasCode
    constructor
    · rintro ⟨r, hr, hrc⟩
      rcases List.mem_append.mp hr with hl | hl
      · exact Or.inl ⟨r, hl, hrc⟩
      · rcases List.mem_singleton.mp hl with rfl
        exact Or.inr hrc.symm
    · rintro (⟨m, hm, hmc⟩ | rfl)
      · exact ⟨m, List.mem_append_left _ hm, hmc⟩
      · exact ⟨_, List.mem_append_right _ (List.mem_singleton.mpr rfl), rfl⟩

theorem pomPure_hasCode (dept course : Option Nat) (ay : Option String)
    (acc : DB × Summary) (md : PdfModule) (c2 : String) :
    hasCode (pomPure dept course ay acc md).1 c2 ↔
      hasCode acc.1 c2 ∨
        (pyTruthy md.code = some c2 ∧ (pyTruthy md.title).isSome = true) := by
  unfold pomPure
  cases hc : pyTruthy md.code with
  | none => simp [hc]
  | some c =>
    cases ht : pyTruthy md.title with
    | none => simp [hc, ht]
    | some t =>
      simp only [hc, ht]
      rw [hasCode_of_modules_eq (iterPure_fields course ay _ _).2.2, upsert_hasCode]
      simp [eq_comm]

theorem foldPom_hasCode (dept course : Option Nat) (ay : Option String) :
    ∀ (ms : List PdfModule) (acc : DB × Summary) (c2 : String),
      hasCode ((ms.foldl (pomPure dept course ay) acc).1) c2 ↔
        hasCode acc.1 c2 ∨
          ∃ md ∈ ms, pyTruthy md.code = some c2 ∧ (pyTruthy md.title).isSome = true
  | [], acc, c2 => by simp
  | md :: ms, acc, c2 => by
    rw [List.foldl_cons, foldPom_hasCode dept course ay ms (pomPure dept course ay acc md) c2,
      pomPure_hasCode,
      List.exists_mem_cons_iff
        (fun md => pyTruthy md.code = some c2 ∧ (pyTruthy md.title).isSome = true) md ms]
    tauto

theorem upsert_mono (dept : Option Nat) (c t : String) (cr : Option Rat) (db : DB)
    (i : Nat) (c2 : String) (h : idCodeIn db i c2) :
    idCodeIn (upsertModulePure dept c t cr db).1 i c2 := by
  unfold upsertModulePure
  obtain ⟨r, hr, hri, hrc⟩ := h
  cases hf : db.modules.find? (fun r => r.code == c) with
  | some r0 =>
    refine ⟨_, List.mem_map_of_mem _ hr, ?_, ?_⟩ <;> (dsimp only; split <;> simp [hri, hrc])
  | none => exact ⟨r, List.mem_append_left _ hr, hri, hrc⟩

theorem upsert_row (dept : Option Nat) (c t : String) (cr : Option Rat) (db : DB) :
    ∃ r ∈ (upsertModulePure dept c t cr db).1.modules,
      r.id = (upsertModulePure dept c t cr db).2.1 ∧ r.code = c := by
  unfold upsertModulePure
  cases hf : db.modules.find? (fun r => r.code == c) with
  | some r0 =>
    have hr0 : r0 ∈ db.modules := List.mem_of_find?_eq_some hf
    have hr0c : r0.code = c := by simpa using List.find?_some hf
    refine ⟨_, List.mem_map_of_mem _ hr0, ?_, ?_⟩ <;> simp [hr0c]
  | none =>
    exact ⟨_, List.mem_append_right _ (List.mem_singleton.mpr rfl), rfl, rfl⟩

theorem iterPure_iters_links_mono (course : Option Nat) (ay : Option String) (mid : Nat)
    (db : DB) :
    (∀ it, it ∈ db.module_iterations → it ∈ (iterPure course ay mid db).module_iterations) ∧
    (∀ l, l ∈ db.links → l ∈ (iterPure course ay mid db).links) := by
  unfold iterPure
  cases hay : pyTruthy ay with
  | none => exact ⟨fun _ h => h, fun _ h => h⟩
  | some y =>
    dsimp only
    cases hf : db.module_iterations.find?
        (fun r => r.module_id == mid && r.academic_year_start_year == y) with
    | some it0 =>
      simp only [hf]
      exact ⟨fun _ h => h, fun _ h => h⟩
    | none =>
      simp only [hf]
      cases course with
      | none => exact ⟨fun _ h => List.mem_append_left _ h, fun _ h => h⟩
      | some cid =>
        by_cases hl : ((db.nextId, cid) ∈ db.links)
        · constructor
          · intro it h
            simp [h, hl]
          · intro l h
            simp [h, hl]
        · constructor
          · intro it h
            simp [h, hl]
          · intro l h
            simp [h, hl]

theorem pomPure_mono (dept course : Option Nat) (ay : Option String)
    (acc : DB × Summary) (md : PdfModule) :
    (∀ i c2, idCodeIn acc.1 i c2 → idCodeIn (pomPure dept course ay acc md).1 i c2) ∧
    (∀ it, it ∈ acc.1.module_iterations →
       it ∈ (pomPure dept course ay acc md).1.module_iterations) ∧
    (∀ l, l ∈ acc.1.links → l ∈ (pomPure dept course ay acc md).1.links) := by
  unfold pomPure
  cases hc : pyTruthy md.code with
  | none => exact ⟨fun _ _ h => h, fun _ h => h, fun _ h => h⟩
  | some c =>
    cases ht : pyTruthy md.title with
    | none => exact ⟨fun _ _ h => h, fun _ h => h, fun _ h => h⟩
    | some t =>
      simp only [hc, ht]
      refine ⟨fun i c2 h => ?_, fun it h => ?_, fun l h => ?_⟩
      · have h1 := upsert_mono dept c t (getCredits md.credits) acc.1 i c2 h
        unfold idCodeIn at h1 ⊢
        rw [(iterPure_fields course ay _ _).2.2]
        exact h1
      · rw [← (upsert_fields dept c t (getCredits md.credits) acc.1).2.2.1] at h
        exact (iterPure_iters_links_mono course ay _ _).1 it h
      · rw [← (upsert_fields dept c t (getCredits md.credits) acc.1).2.2.2] at h
        exact (iterPure_iters_links_mono course ay _ _).2 l h

theorem foldPom_mono (dept course : Option Nat) (ay : Option String) :
    ∀ (ms : List PdfModule) (acc : DB × Summary),
      (∀ i c2, idCodeIn acc.1 i c2 → idCodeIn ((ms.foldl (pomPure dept course ay) acc)).1 i c2) ∧
      (∀ it, it ∈ acc.1.module_iterations →
         it ∈ ((ms.foldl (pomPure dept course ay) acc)).1.module_iterations) ∧
      (∀ l, l ∈ acc.1.links → l ∈ ((ms.foldl (pomPure dept course ay) acc)).1.links)
  | [], _ => ⟨fun _ _ h => h, fun _ h => h, fun _ h => h⟩
  | md :: ms, acc => by
    rw [List.foldl_cons]
    obtain ⟨f1, f2, f3⟩ := foldPom_mono dept course ay ms (pomPure dept course ay acc md)
    obtain ⟨g1, g2, g3⟩ := pomPure_mono dept course ay acc md
    exact ⟨fun i c2 h => f1 i c2 (g1 i c2 h), fun it h => f2 it (g2 it h),
      fun l h => f3 l (g3 l h)⟩

theorem iterPure_linkedTo (cid : Nat) (ay : Option String) (mid : Nat) (db : DB)
    (h : linkedTo db cid) : linkedTo (iterPure (some cid) ay mid db) cid := by
  unfold iterPure
  cases hay : pyTruthy ay with
  | none => exact h
  | some y =>
    dsimp only
    cases hf : db.module_iterations.find?
        (fun r => r.module_id == mid && r.academic_year_start_year == y) with
    | some it0 =>
      simp only [hf]
      exact h
    | none =>
      simp only [hf]
      by_cases hl : ((db.nextId, cid) ∈ db.links)
      · rw [if_pos (by simpa using hl)]
        intro it hit
        rcases List.mem_append.mp hit with h1 | h1
        · exact h it h1
        · rcases List.mem_singleton.mp h1 with rfl
          exact hl
      · rw [if_neg (by simpa using hl)]
        intro it hit
        rcases List.mem_append.mp hit with h1 | h1
        · exact List.mem_append_left _ (h it h1)
        · rcases List.mem_singleton.mp h1 with rfl
          exact List.mem_append_right _ (List.mem_singleton.mpr rfl)

theorem pomPure_linkedTo (dept : Option Nat) (cid : Nat) (ay : Option String)
    (acc : DB × Summary) (md : PdfModule) (h : linkedTo acc.1 cid) :
    linkedTo (pomPure dept (some cid) ay acc md).1 cid := by
  unfold pomPure
  cases hc : pyTruthy md.code with
  | none => exact h
  | some c =>
    cases ht : pyTruthy md.title with
    | none => exact h
    | some t =>
      simp only [hc, ht]
      apply iterPure_linkedTo
      unfold linkedTo at h ⊢
      rw [(upsert_fields dept c t (getCredits md.credits) acc.1).2.2.1,
        (upsert_fields dept c t (getCredits md.credits) acc.1).2.2.2]
      exact h

theorem foldPom_linkedTo (dept : Option Nat) (cid : Nat) (ay : Option String) :
    ∀ (ms : List PdfModule) (acc : DB × Summary), linkedTo acc.1 cid →
      linkedTo ((ms.foldl (pomPure dept (some cid) ay) acc)).1 cid
  | [], _, h => h
  | md :: ms, acc, h => by
    rw [List.foldl_cons]
    exact foldPom_linkedTo dept cid ay ms (pomPure dept (some cid) ay acc md)
      (pomPure_linkedTo dept cid ay acc md h)

theorem iterPure_creates (cid : Nat) (ay : Option String) (y : String) (mid : Nat) (db : DB)
    (hay : pyTruthy ay = some y) (hlink : linkedTo db cid) :
    ∃ it ∈ (iterPure (some cid) ay mid db).module_iterations,
      it.module_id = mid ∧ it.academic_year_start_year = y ∧
      (it.id, cid) ∈ (iterPure (some cid) ay mid db).links := by
  unfold iterPure
  rw [hay]
  dsimp only
  cases hf : db.module_iterations.find?
      (fun r => r.module_id == mid && r.academic_year_start_year == y) with
  | some it0 =>
    simp only [hf]
    have hmem : it0 ∈ db.module_iterations := List.mem_of_find?_eq_some hf
    have hpred := List.find?_some hf
    rw [Bool.and_eq_true] at hpred
    exact ⟨it0, hmem, by simpa using hpred.1, by simpa using hpred.2, hlink it0 hmem⟩
  | none =>
    simp only [hf]
    by_cases hl : ((db.nextId, cid) ∈ db.links)
    · rw [if_pos (show (db.links.contains (db.nextId, cid)) = true from by simpa using hl)]
      exact ⟨{ id := db.nextId, module_id := mid, academic_year_start_year := y },
        List.mem_append_right _ (List.mem_singleton.mpr rfl), rfl, rfl, hl⟩
    · rw [if_neg (show ¬ (db.links.contains (db.nextId, cid)) = true from by simpa using hl)]
      exact ⟨{ id := db.nextId, module_id := mid, academic_year_start_year := y },
        List.mem_append_right _ (List.mem_singleton.mpr rfl), rfl, rfl,
        List.mem_append_right _ (List.mem_singleton.mpr rfl)⟩

theorem pomPure_creates (dept : Option Nat) (cid : Nat) (ay : Option String) (y : String)
    (acc : DB × Summary) (md : PdfModule) (c t : String)
    (hc : pyTruthy md.code = some c) (ht : pyTruthy md.title = some t)
    (hay : pyTruthy ay = some y) (hlink : linkedTo acc.1 cid) :
    ∃ r it,
      r ∈ (pomPure dept (some cid) ay acc md).1.modules ∧ r.code = c ∧
      it ∈ (pomPure dept (some cid) ay acc md).1.module_iterations ∧
      it.module_id = r.id ∧ it.academic_year_start_year = y ∧
      (it.id, cid) ∈ (pomPure dept (some cid) ay acc md).1.links := by
  unfold pomPure
  simp only [hc, ht]
  obtain ⟨r, hr, hrid, hrc⟩ := upsert_row dept c t (getCredits md.credits) acc.1
  have hlink1 : linkedTo (upsertModulePure dept c t (getCredits md.credits) acc.1).1 cid := by
    unfold linkedTo at hlink ⊢
    rw [(upsert_fields dept c t (getCredits md.credits) acc.1).2.2.1,
      (upsert_fields dept c t (getCredits md.credits) acc.1).2.2.2]
    exact hlink
  obtain ⟨it, hit, him, hiy, hil⟩ :=
    iterPure_creates cid ay y (upsertModulePure dept c t (getCredits md.credits) acc.1).2.1
      (upsertModulePure dept c t (getCredits md.credits) acc.1).1 hay hlink1
  refine ⟨r, it, ?_, hrc, hit, ?_, hiy, hil⟩
  · rw [(iterPure_fields _ _ _ _).2.2]
    exact hr
  · rw [him, hrid]

/-- Body-level fact: the body upserts keyed by equality — the
departments table is exactly the insert-or-get by department name, the
courses table exactly the insert-or-get by the first course entry's
title, a module code is present after the body precisely when it was
present before or carried by some processed entry, and on a fresh
database every processed module gets an iteration row for the extracted
`academic_year`, linked to the detected course.  This is the behaviour
the source's unreachable body encodes. -/
theorem loader_upserts_by_keys :
    (∀ (pdf : PdfData) (db0 : DB), ∃ s,
        (process_programme_spec_body pureOps pdf db0).result = Except.ok s) ∧
    (∀ (pdf : PdfData) (db0 : DB),
        (process_programme_spec_body pureOps pdf db0).persist.departments =
          (deptSectionPure pdf db0).1.departments) ∧
    (∀ (pdf : PdfData) (db0 : DB),
        (process_programme_spec_body pureOps pdf db0).persist.courses =
          (courseSectionPure pdf (deptSectionPure pdf db0).2
            (deptSectionPure pdf db0).1).1.courses) ∧
    (∀ (pdf : PdfData) (db0 : DB) (c : String),
        hasCode (process_programme_spec_body pureOps pdf db0).persist c ↔
          hasCode db0 c ∨ ∃ md ∈ allModules pdf,
            pyTruthy md.code = some c ∧ (pyTruthy md.title).isSome = true) ∧
    (∀ (pdf : PdfData) (y : String) (cid : Nat) (c t : String) (md : PdfModule),
        pyTruthy pdf.academic_year = some y →
        (courseSectionPure pdf (deptSectionPure pdf emptyDB).2
          (deptSectionPure pdf emptyDB).1).2 = some cid →
        md ∈ allModules pdf → pyTruthy md.code = some c → pyTruthy md.title = some t →
        ∃ r it,
          r ∈ (process_programme_spec_body pureOps pdf emptyDB).persist.modules ∧
          r.code = c ∧
          it ∈ (process_programme_spec_body pureOps pdf emptyDB).persist.module_iterations ∧
          it.module_id = r.id ∧ it.academic_year_start_year = y ∧
          (it.id, cid) ∈ (process_programme_spec_body pureOps pdf emptyDB).persist.links) := by
  refine ⟨fun pdf db0 => ⟨_, (process_pure_spec pdf db0).2⟩,
    fun pdf db0 => ?_, fun pdf db0 => ?_, fun pdf db0 c => ?_,
    fun pdf y cid c t md hay hcid hmd hc ht => ?_⟩
  · rw [(process_pure_spec pdf db0).1,
      (foldPom_dept_courses _ _ _ (allModules pdf) _).1]
    exact (courseSectionPure_fields pdf (deptSectionPure pdf db0).2
      (deptSectionPure pdf db0).1).1
  · rw [(process_pure_spec pdf db0).1,
      (foldPom_dept_courses _ _ _ (allModules pdf) _).2]
  · rw [(process_pure_spec pdf db0).1, foldPom_hasCode]
    have h1 : hasCode ((courseSectionPure pdf (deptSectionPure pdf db0).2
        (deptSectionPure pdf db0).1).1) c ↔ hasCode db0 c := by
      rw [hasCode_of_modules_eq (courseSectionPure_fields pdf (deptSectionPure pdf db0).2
          (deptSectionPure pdf db0).1).2.1,
        hasCode_of_modules_eq (deptSectionPure_fields pdf db0).2.1]
    rw [show hasCode ((courseSectionPure pdf (deptSectionPure pdf db0).2
        (deptSectionPure pdf db0).1).1, emptySummary).1 c ↔ hasCode db0 c from h1]
  · have hp := (process_pure_spec pdf emptyDB).1
    obtain ⟨ms1, ms2, hsplit⟩ := List.append_of_mem hmd
    rw [hsplit, hcid, List.foldl_append, List.foldl_cons] at hp
    have hL0 : linkedTo ((courseSectionPure pdf (deptSectionPure pdf emptyDB).2
        (deptSectionPure pdf emptyDB).1).1) cid := by
      intro it hit
      rw [(courseSectionPure_fields pdf (deptSectionPure pdf emptyDB).2
          (deptSectionPure pdf emptyDB).1).2.2.1,
        (deptSectionPure_fields pdf emptyDB).2.2.1] at hit
      cases hit
    have hL1 : linkedTo ((List.foldl (pomPure (deptSectionPure pdf emptyDB).2 (some cid)
        pdf.academic_year)
        ((courseSectionPure pdf (deptSectionPure pdf emptyDB).2
          (deptSectionPure pdf emptyDB).1).1, emptySummary) ms1)).1 cid :=
      foldPom_linkedTo _ cid _ ms1 _ hL0
    obtain ⟨r, it, hr, hrc, hit, him, hiy, hil⟩ :=
      pomPure_creates (deptSectionPure pdf emptyDB).2 cid pdf.academic_year y
        (List.foldl (pomPure (deptSectionPure pdf emptyDB).2 (some cid) pdf.academic_year)
          ((courseSectionPure pdf (deptSectionPure pdf emptyDB).2
            (deptSectionPure pdf emptyDB).1).1, emptySummary) ms1)
        md c t hc ht hay hL1
    obtain ⟨m1, m2, m3⟩ :=
      foldPom_mono (deptSectionPure pdf emptyDB).2 (some cid) pdf.academic_year ms2
        (pomPure (deptSectionPure pdf emptyDB).2 (some cid) pdf.academic_year
          (List.foldl (pomPure (deptSectionPure pdf emptyDB).2 (some cid) pdf.academic_year)
            ((courseSectionPure pdf (deptSectionPure pdf emptyDB).2
              (deptSectionPure pdf emptyDB).1).1, emptySummary) ms1) md)
    obtain ⟨r2, hr2, hr2id, hr2c⟩ := m1 r.id c ⟨r, hr, rfl, hrc⟩
    refine ⟨r2, it, ?_, hr2c, ?_, ?_, hiy, ?_⟩
    · rw [hp]
      exact hr2
    · rw [hp]
      exact m2 it hit
    · rw [him, ← hr2id]
    · rw [hp]
      exact m3 (it.id, cid) hil

/-- Body-level instantiation on a one-module document: the processed
module's row would exist, with an iteration for the extracted year
linked to the detected course. -/
theorem loader_upserts_by_keys_witness :
    ∃ r it,
      r ∈ (process_programme_spec_body pureOps
        { academic_year := some "2024", department_name := some "Computing"
          courses := [{ title := some "MEng Computing" }]
          modules_by_year := [("year_1",
            [{ code := some "COMP40001", title := some "Programming"
               credits := CreditsField.val 6 }])] } emptyDB).persist.modules ∧
      r.code = "COMP40001" ∧
      it ∈ (process_programme_spec_body pureOps
        { academic_year := some "2024", department_name := some "Computing"
          courses := [{ title := some "MEng Computing" }]
          modules_by_year := [("year_1",
            [{ code := some "COMP40001", title := some "Programming"
               credits := CreditsField.val 6 }])] } emptyDB).persist.module_iterations ∧
      it.module_id = r.id ∧ it.academic_year_start_year = "2024" ∧
      (it.id, 2) ∈ (process_programme_spec_body pureOps
        { academic_year := some "2024", department_name := some "Computing"
          courses := [{ title := some "MEng Computing" }]
          modules_by_year := [("year_1",
            [{ code := some "COMP40001", title := some "Programming"
               credits := CreditsField.val 6 }])] } emptyDB).persist.links :=
  loader_upserts_by_keys.2.2.2.2
    { academic_year := some "2024", department_name := some "Computing"
      courses := [{ title := some "MEng Computing" }]
      modules_by_year := [("year_1",
        [{ code := some "COMP40001", title := some "Programming"
           credits := CreditsField.val 6 }])] }
    "2024" 2 "COMP40001" "Programming"
    { code := some "COMP40001", title := some "Programming", credits := CreditsField.val 6 }
    (by decide) (by decide) (by decide) (by decide) (by decide)

/-! ## The unreachable loader entry (claims C7, C9, C10) -/

/-- C7.  The loader never upserts anything: db.py line 593 binds the bare
`@contextmanager` object and line 594's `conn.cursor` raises
AttributeError before any SQL runs, so every call of
`process_programme_spec_data` leaves the database exactly as it was — no
department, course, module or module-iteration row is ever read or
written — and the exception propagates instead of a summary. -/
theorem loader_never_reaches_upserts :
    ∀ (ops : DBOps) (pdf : PdfData) (db0 : DB),
      (process_programme_spec_data ops pdf db0).persist = db0 ∧
      (process_programme_spec_data ops pdf db0).result =
        Except.error "AttributeError: _GeneratorContextManager has no attribute cursor" :=
  fun _ _ _ => ⟨rfl, rfl⟩

/-- C9.  `getCredits` renders db.py line 652's `.get("credits", 0)` — a
missing key coerces to 0 while an explicit null stays NULL — but the
line is unreachable: the entry raises AttributeError at db.py line 594,
so no call of `process_programme_spec_data` ever stores any credits
value; the modules table is untouched by every invocation. -/
theorem credits_never_stored :
    getCredits CreditsField.missing = some 0 ∧
    getCredits CreditsField.null = none ∧
    ∀ (ops : DBOps) (pdf : PdfData) (db0 : DB),
      (process_programme_spec_data ops pdf db0).persist.modules = db0.modules :=
  ⟨rfl, rfl, fun _ _ _ => rfl⟩

/-- C10.  The claimed error handling never runs: the AttributeError at
db.py line 594 precedes the `try`/`finally`, so on every call of
`process_programme_spec_data` no cursor is ever created, neither cursor
nor connection is closed, nothing is rolled back or caught, and the
exception propagates to the caller. -/
theorem loader_crashes_before_handling :
    ∀ (ops : DBOps) (pdf : PdfData) (db0 : DB),
      (process_programme_spec_data ops pdf db0).cursorCreated = false ∧
      (process_programme_spec_data ops pdf db0).curClosed = false ∧
      (process_programme_spec_data ops pdf db0).connClosed = false ∧
      (process_programme_spec_data ops pdf db0).result =
        Except.error "AttributeError: _GeneratorContextManager has no attribute cursor" :=
  fun _ _ _ => ⟨rfl, rfl, rfl, rfl⟩

end MYM
